import Mathlib

/-! Request admission layer of the kernel (`kernel/model/session.go`).

A shallow embedding of the middleware functions of `session.go`:
`isLocalhost`, `checkCookies`, `checkToken`, `checkBasic`, `abortWithUnauthorized`,
`CheckAuth`, `CheckBasicAuth`, `LoginAuth`, `ControlConcurrency`, `Timing` and `Recover`,
followed by the properties proved about them.

Conventions of the embedding.

* A Go `string` is a Lean `String`.  `strings.HasPrefix` and `strings.TrimPrefix` are
  written over the character lists; every literal the source passes to them is ASCII.
* What the source obtains from package `util`, from the global `Conf`, and from the Go
  standard library (`url.QueryEscape`, `strings.ToLower`) is not defined in
  `session.go`; it is collected in the record `Env` and every theorem holds for every
  `Env`.
* What the web framework computes from the incoming request (`c.ClientIP()`,
  `c.Request.BasicAuth()`, `c.IsWebsocket()`, the parsed query, the parsed URL, the
  session of the cookie) is a field of the record `Context`.
* What a call reads from the clock, the process environment, the random generator or the
  session store is an input of that call (`LoginInput`, `TimingInput`); how the
  downstream handler ends is a value of `Completion`.
* Global state (`util.WrongAuthCount`, the map `requesting`) is passed explicitly
  (`LoginState`, `Registry`).
* The effect of a middleware on the response is a value of `Outcome`.
-/

namespace SiYuan

/-! ## Strings -/

/-- Go `strings.HasPrefix(s, pre)`. -/
def HasPrefix (s pre : String) : Bool :=
  pre.data.isPrefixOf s.data

/-- Go `strings.TrimPrefix(s, pre)`: `s` without the leading `pre`, or `s` itself when
`s` does not start with `pre`. -/
def TrimPrefix (s pre : String) : String :=
  if HasPrefix s pre then String.mk (s.data.drop pre.data.length) else s

/-! ## Environment: package `util`, `Conf`, standard library -/

/-- The names `session.go` uses and does not define. -/
structure Env where
  /-- The function `util.IsLocalHost`. -/
  IsLocalHost : String → Bool
  /-- The function `util.IsLocalHostname`. -/
  IsLocalHostname : String → Bool
  /-- The function `util.IsLocalOrigin`. -/
  IsLocalOrigin : String → Bool
  /-- The function `util.NeedCaptcha()`, as a function of the value of `util.WrongAuthCount`. -/
  NeedCaptcha : Int → Bool
  /-- The variable `util.Container`. -/
  Container : String
  /-- The constant `util.ContainerIOS`. -/
  ContainerIOS : String
  /-- The constant `util.ContainerAndroid`. -/
  ContainerAndroid : String
  /-- The variable `util.SiyuanAccessAuthCodeBypass`. -/
  SiyuanAccessAuthCodeBypass : Bool
  /-- The field `Conf.AccessAuthCode`. -/
  AccessAuthCode : String
  /-- The field `Conf.Api.Token`. -/
  ApiToken : String
  /-- The method `Conf.Language(num)`. -/
  Language : Int → String
  /-- Go `url.QueryEscape`. -/
  QueryEscape : String → String
  /-- Go `strings.ToLower`. -/
  ToLower : String → String

/-! ## Session and request context -/

/-- The record `util.WorkspaceSession`: the fields `session.go` reads and writes. -/
structure WorkspaceSession where
  AccessAuthCode : String
  Captcha : String
deriving DecidableEq, Repr

/-- The `*gin.Context` of one request, as far as `session.go` looks at it. -/
structure Context where
  /-- The field `c.Request.RemoteAddr`. -/
  RemoteAddr : String
  /-- The field `c.Request.RequestURI`. -/
  RequestURI : String
  /-- The field `c.Request.Method`. -/
  Method : String
  /-- The field `c.Request.URL.Path`. -/
  URLPath : String
  /-- The value of `c.Request.URL.String()`. -/
  URLString : String
  /-- The header fields of the request as received: canonical key and its first value. -/
  Header : List (String × String)
  /-- The parsed query string: key and its first value. -/
  Query : List (String × String)
  /-- The value of `c.ClientIP()`, which the framework derives from the remote address
  and, behind a trusted proxy, from the forwarding headers. -/
  ClientIP : String
  /-- The value of `c.Request.BasicAuth()`: user name and password when the request
  carries well-formed HTTP Basic credentials. -/
  BasicAuth : Option (String × String)
  /-- The value of `c.IsWebsocket()`. -/
  IsWebsocket : Bool
  /-- The value of `websocket.IsWebSocketUpgrade(c.Request)`. -/
  IsWebSocketUpgrade : Bool := false
  /-- The workspace session of the request cookie:
  `util.GetWorkspaceSession(util.GetSession(c))`. -/
  Session : WorkspaceSession

/-- The call `c.GetHeader(key)`, that is `c.Request.Header.Get(key)`: the first value of
the header, `""` when it is absent.  The map `c.Request.Header` of a served request has
no entry for `Host`: the server moves that field of the request to `c.Request.Host`. -/
def GetHeader (c : Context) (key : String) : String :=
  if key = "Host" then ""
  else
    match c.Header.lookup key with
    | some v => v
    | none => ""

/-- The call `c.GetQuery(key)`: the first value of the parameter and whether it is present. -/
def GetQuery (c : Context) (key : String) : String × Bool :=
  match c.Query.lookup key with
  | some v => (v, true)
  | none => ("", false)

/-! ## Responses -/

/-- A JSON body `{"code": ..., "msg": ...}`. -/
structure JsonBody where
  code : Int
  msg : String
deriving DecidableEq, Repr

/-- What a middleware does with the request. -/
inductive Outcome where
  /-- The call `c.Next()`: the request is passed through to the handler. -/
  | next
  /-- A JSON response with the given status, and the chain is aborted
  (`c.JSON` then `c.Abort`, or `c.AbortWithStatusJSON`). -/
  | abortJSON (status : Nat) (body : JsonBody)
  /-- The call `c.Redirect(status, location)` followed by `c.Abort()`. -/
  | redirect (status : Nat) (location : String)
  /-- A response header set with `c.Header(key, value)` followed by
  `c.AbortWithStatus(status)`. -/
  | abortStatus (status : Nat) (key value : String)
deriving DecidableEq, Repr

/-- Whether the downstream handler is run. -/
def Outcome.handlerRun : Outcome → Bool
  | .next => true
  | _ => false

/-- The status `http.StatusUnauthorized`. -/
def StatusUnauthorized : Nat := 401

/-- The status `http.StatusFound`. -/
def StatusFound : Nat := 302

/-- The status `http.StatusInternalServerError`. -/
def StatusInternalServerError : Nat := 500

/-! ## Credential checks -/

/-- The function `checkCookies`. -/
def checkCookies (env : Env) (c : Context) : Bool :=
  c.Session.AccessAuthCode == env.AccessAuthCode

/-- The token `checkToken` extracts and its flag `ok`. -/
def extractToken (c : Context) : String × Bool :=
  let authHeader := GetHeader c "Authorization"
  if authHeader ≠ "" then
    if HasPrefix authHeader "Token " then (TrimPrefix authHeader "Token ", true)
    else ("", false)
  else GetQuery c "token"

/-- The function `checkToken`: the pair `(certified, ok)`. -/
def checkToken (env : Env) (c : Context) : Bool × Bool :=
  let (token, ok) := extractToken c
  (env.ApiToken == token, ok)

/-- The function `checkBasic`: the pair `(certified, ok)`.  When `BasicAuth` fails the
password is the empty string. -/
def checkBasic (env : Env) (c : Context) : Bool × Bool :=
  match c.BasicAuth with
  | some (_, password) => (env.AccessAuthCode == password, true)
  | none => (env.AccessAuthCode == "", false)

/-- The function `isLocalhost`. -/
def isLocalhost (env : Env) (c : Context) : Bool :=
  if !env.IsLocalHost c.RemoteAddr then false
  else
    let host := GetHeader c "Host"
    if host ≠ "" ∧ !env.IsLocalHost host then false
    else
      let origin := GetHeader c "Origin"
      if origin ≠ "" ∧ (!env.IsLocalOrigin origin && !HasPrefix origin "chrome-extension://") then false
      else
        let forwardedHost := GetHeader c "X-Forwarded-Host"
        if forwardedHost ≠ "" ∧ !env.IsLocalHost forwardedHost then false
        else true

/-- The function `abortWithUnauthorized`. -/
def abortWithUnauthorized : Outcome :=
  .abortJSON StatusUnauthorized ⟨-1, "Auth failed"⟩

/-! ## `CheckAuth` -/

/-- The message of the open-mode rejection. -/
def openModeMsg : String :=
  "Auth failed: for security reasons, please set [Access authorization code] when using non-127.0.0.1 access\n\n为安全起见，使用非 127.0.0.1 访问时请设置 [访问授权码]"

/-- The first block of `CheckAuth` after the open-mode branch: the request URI is under
an always-public location. -/
def publicURI (c : Context) : Bool :=
  HasPrefix c.RequestURI "/appearance/" ||
  HasPrefix c.RequestURI "/stage/build/export/" ||
  HasPrefix c.RequestURI "/stage/build/fonts/" ||
  HasPrefix c.RequestURI "/stage/protyle/"

/-- The block `if localhost { ... }` of `CheckAuth`: `true` when one of its branches
reaches `c.Next()`. -/
def localExempt (env : Env) (c : Context) (localhost : Bool) : Bool :=
  if localhost then
    if HasPrefix c.RequestURI "/assets/" then true
    else if HasPrefix c.RequestURI "/api/system/exit" then true
    else if HasPrefix c.RequestURI "/api/system/getNetwork" then true
    else if HasPrefix c.RequestURI "/api/sync/performSync" then
      if env.ContainerIOS = env.Container ∨ env.ContainerAndroid = env.Container then true
      else false
    else false
  else false

/-- The location of the redirect: a `url.URL` with path `/check-auth` and the raw query
`url.Values{"to": ...}.Encode()`, rendered by `String()`. -/
def loginLocation (env : Env) (c : Context) : String :=
  let rawQuery := "to" ++ "=" ++ env.QueryEscape c.URLString
  "/check-auth" ++ "?" ++ rawQuery

/-- The last block of `CheckAuth`, entered when no credential was presented and the path
is not the login page. -/
def unauthenticated (env : Env) (c : Context) (cookiesCertified : Bool) : Outcome :=
  if !cookiesCertified then
    let userAgentHeader := GetHeader c "User-Agent"
    if HasPrefix userAgentHeader "SiYuan/" || HasPrefix userAgentHeader "Mozilla/" then
      if c.Method ≠ "GET" ∨ c.IsWebsocket then
        .abortJSON StatusUnauthorized ⟨-1, env.Language 156⟩
      else
        .redirect StatusFound (loginLocation env c)
    else abortWithUnauthorized
  else .next

/-- The function `CheckAuth`. -/
def CheckAuth (env : Env) (c : Context) : Outcome :=
  let localhost := isLocalhost env c
  if env.AccessAuthCode = "" then
    if env.SiyuanAccessAuthCodeBypass then .next
    else
      let clientIP := c.ClientIP
      let host := GetHeader c "Host"
      let origin := GetHeader c "Origin"
      let forwardedHost := GetHeader c "X-Forwarded-Host"
      if !localhost ||
          (clientIP != "" && !env.IsLocalHostname clientIP) ||
          (host != "" && !env.IsLocalHost host) ||
          (origin != "" && !env.IsLocalOrigin origin && !HasPrefix origin "chrome-extension://") ||
          (forwardedHost != "" && !env.IsLocalHost forwardedHost) then
        .abortJSON StatusUnauthorized ⟨-1, openModeMsg⟩
      else .next
  else if publicURI c then .next
  else if localExempt env c localhost then .next
  else
    let cookiesCertified := checkCookies env c
    if cookiesCertified then .next
    else
      let tok := checkToken env c
      if tok.2 then
        if tok.1 then .next else abortWithUnauthorized
      else
        let basic := checkBasic env c
        if basic.2 then
          if basic.1 then .next else abortWithUnauthorized
        else if c.URLPath = "/check-auth" then .next
        else unauthenticated env c cookiesCertified

/-! ## `LoginAuth` -/

/-- A decoded JSON value of the request body, as far as the type assertions of
`LoginAuth` tell values apart. -/
inductive JsonVal where
  /-- A JSON string. -/
  | str (s : String)
  /-- A JSON number, boolean, array or object. -/
  | other
deriving DecidableEq, Repr

/-- The result record `gulu.Ret.NewResult()`: the fields `LoginAuth` sets. -/
structure Ret where
  Code : Int
  Msg : String
deriving DecidableEq, Repr

/-- What one call of `LoginAuth` receives from outside `session.go`. -/
structure LoginInput where
  /-- The value of `util.JsonArg(c, ret)`: the decoded body (a key that is missing or
  `null` looks up to `nil`), or `none` when its flag `ok` is false. -/
  JsonArg : Option (List (String × JsonVal))
  /-- The record `ret` as `util.JsonArg` leaves it when it fails. -/
  JsonArgRet : Ret
  /-- The string `gulu.Rand.String(7)` returns in this call. -/
  Rand : String
  /-- Whether `session.Save(c)` returns an error. -/
  SaveFails : Bool

/-- The state `LoginAuth` reads and writes: the counter `util.WrongAuthCount` and the
workspace session of the request cookie. -/
structure LoginState where
  WrongAuthCount : Int
  Session : WorkspaceSession
deriving DecidableEq, Repr

/-- The state after a call of `LoginAuth` and what the call answers. -/
structure LoginResult where
  /-- The counter and the session after the call. -/
  state : LoginState
  /-- The record sent by the deferred `c.JSON(http.StatusOK, ret)`. -/
  ret : Ret
  /-- The status passed to `c.Status`, when `session.Save` failed. -/
  Status : Option Nat
  /-- Whether a type assertion on the request body failed at run time. -/
  panicked : Bool
deriving DecidableEq, Repr

/-- The statement `util.WrongAuthCount++` on a 64-bit Go `int`. -/
def incInt (n : Int) : Int :=
  if n = 9223372036854775807 then -9223372036854775808 else n + 1

/-- The status recorded after `session.Save(c)`. -/
def saveStatus (inp : LoginInput) : Option Nat :=
  if inp.SaveFails then some StatusInternalServerError else none

/-- The part of `LoginAuth` after the captcha gate: the comparison of the submitted
`authCode` with the configured one. -/
def loginCheckCode (env : Env) (inp : LoginInput) (st : LoginState)
    (arg : List (String × JsonVal)) : LoginResult :=
  match arg.lookup "authCode" with
  | some (.str authCode) =>
    if env.AccessAuthCode ≠ authCode then
      let count := incInt st.WrongAuthCount
      let code : Int := if env.NeedCaptcha count then 1 else -1
      { state := ⟨count, { st.Session with Captcha := inp.Rand }⟩,
        ret := ⟨code, env.Language 83⟩,
        Status := saveStatus inp,
        panicked := false }
    else
      { state := ⟨0, { AccessAuthCode := authCode, Captcha := inp.Rand }⟩,
        ret := ⟨0, ""⟩,
        Status := saveStatus inp,
        panicked := false }
  | _ => { state := st, ret := ⟨0, ""⟩, Status := none, panicked := true }

/-- The function `LoginAuth`. -/
def LoginAuth (env : Env) (inp : LoginInput) (st : LoginState) : LoginResult :=
  match inp.JsonArg with
  | none => { state := st, ret := inp.JsonArgRet, Status := none, panicked := false }
  | some arg =>
    if env.NeedCaptcha st.WrongAuthCount then
      match arg.lookup "captcha" with
      | none => { state := st, ret := ⟨1, env.Language 21⟩, Status := none, panicked := false }
      | some (.str inputCaptcha) =>
        if inputCaptcha = "" then
          { state := st, ret := ⟨1, env.Language 21⟩, Status := none, panicked := false }
        else if env.ToLower st.Session.Captcha ≠ env.ToLower inputCaptcha then
          { state := st, ret := ⟨1, env.Language 22⟩, Status := none, panicked := false }
        else loginCheckCode env inp st arg
      | some .other => { state := st, ret := ⟨0, ""⟩, Status := none, panicked := true }
    else loginCheckCode env inp st arg

/-- Consecutive calls of `LoginAuth`, one per input, each on the state the previous call
left. -/
def LoginAuthSeq (env : Env) : List LoginInput → LoginState → LoginState
  | [], st => st
  | inp :: rest, st => LoginAuthSeq env rest (LoginAuth env inp st).state

/-- The largest value of a 64-bit Go `int`. -/
def maxInt : Int := 9223372036854775807

/-! ## `CheckBasicAuth` -/

/-- The function `CheckBasicAuth`. -/
def CheckBasicAuth (env : Env) (c : Context) : Outcome :=
  if env.AccessAuthCode = "" then
    let localhost := isLocalhost env c
    if localhost then .next else abortWithUnauthorized
  else if checkCookies env c then .next
  else
    let tok := checkToken env c
    if tok.2 then
      if tok.1 then .next else abortWithUnauthorized
    else
      let basic := checkBasic env c
      if basic.2 && basic.1 then .next
      else
        .abortStatus StatusUnauthorized "WWW-Authenticate"
          "Basic realm=\"Authorization Required\", charset=\"UTF-8\""

/-! ## `ControlConcurrency` -/

/-- Go `strings.Split(s, "/")`, on the characters of `s`: the pieces of `s` between the
slashes, one more than there are slashes. -/
def splitSlash : List Char → List (List Char)
  | [] => [[]]
  | ch :: cs =>
    if ch = '/' then [] :: splitSlash cs
    else
      match splitSlash cs with
      | seg :: rest => (ch :: seg) :: rest
      | [] => [[ch]]

/-- The value `parts[len(parts)-1]` for `parts := strings.Split(reqPath, "/")`. -/
def lastPart (reqPath : String) : String :=
  String.mk ((splitSlash reqPath.data).getLastD [])

/-- The early returns of `ControlConcurrency`: `true` when the request reaches `c.Next()`
before the lock registry is looked at. -/
def bypassesLock (c : Context) : Bool :=
  if c.IsWebSocketUpgrade then true
  else
    let reqPath := c.URLPath
    if HasPrefix reqPath "/stage/" || HasPrefix reqPath "/assets/" ||
        HasPrefix reqPath "/appearance/" then true
    else
      let function := lastPart reqPath
      if HasPrefix function "get" || HasPrefix function "list" ||
          HasPrefix function "search" || HasPrefix function "render" ||
          HasPrefix function "ls" then true
      else if HasPrefix function "/api/query/" || HasPrefix function "/api/search/" then true
      else false

/-- The map `requesting` from request path to mutex.  A mutex is known by its identity:
the number of mutexes allocated before it. -/
structure Registry where
  /-- The entries of the map, the latest insertion first. -/
  requesting : List (String × Nat)
  /-- The number of mutexes allocated so far. -/
  allocated : Nat
deriving DecidableEq, Repr

/-- What one call of `ControlConcurrency` does. -/
structure ConcurrencyResult where
  /-- The registry after the call. -/
  registry : Registry
  /-- The mutex held while the handler runs, if any. -/
  held : Option Nat
  /-- The number of calls of `c.Next()`. -/
  handlerRuns : Nat
deriving DecidableEq, Repr

/-- The function `ControlConcurrency`, as far as the registry is concerned: the section
between `requestingLock.Lock()` and `requestingLock.Unlock()` is one step. -/
def ControlConcurrency (c : Context) (reg : Registry) : ConcurrencyResult :=
  if bypassesLock c then { registry := reg, held := none, handlerRuns := 1 }
  else
    let reqPath := c.URLPath
    match reg.requesting.lookup reqPath with
    | some mutex => { registry := reg, held := some mutex, handlerRuns := 1 }
    | none =>
      let mutex := reg.allocated
      { registry := ⟨(reqPath, mutex) :: reg.requesting, reg.allocated + 1⟩,
        held := some mutex,
        handlerRuns := 1 }

/-- The registry after the requests of a list have gone through `ControlConcurrency`, in
the order in which they take `requestingLock`. -/
def registryAfter : List Context → Registry → Registry
  | [], reg => reg
  | c :: rest, reg => registryAfter rest (ControlConcurrency c reg).registry

/-- The registry is well formed: no path twice, no lock twice, every lock already
allocated. -/
def Registry.WellFormed (reg : Registry) : Prop :=
  (reg.requesting.map Prod.fst).Nodup ∧ (reg.requesting.map Prod.snd).Nodup ∧
  ∀ m ∈ reg.requesting.map Prod.snd, m < reg.allocated

/-! ## `Timing` -/

/-- How the handler chain run by `c.Next()` ends. -/
inductive Completion where
  /-- The chain returns. -/
  | returned
  /-- The chain panics. -/
  | panicked
deriving DecidableEq, Repr

/-- The table `timingAPIs`: request path and number of the message shown when the
request is slow. -/
def timingAPIs : List (String × Int) :=
  [("/api/search/fullTextSearchBlock", 200)]

/-- The value of an integer expression in a 64-bit Go `int`. -/
def wrapInt64 (n : Int) : Int :=
  (n + 9223372036854775808) % 18446744073709551616 - 9223372036854775808

/-- What one call of `Timing` receives from outside `session.go`. -/
structure TimingInput where
  /-- The value of `os.Getenv("SIYUAN_PERFORMANCE_TIMING")`: `""` when the variable is
  not set. -/
  Getenv : String
  /-- Go `strconv.Atoi`: the integer, or `none` when it returns an error. -/
  Atoi : String → Option Int
  /-- The value of `time.Now().UnixMilli()` before `c.Next()`. -/
  Before : Int
  /-- The value of `time.Now().UnixMilli()` when `c.Next()` has ended. -/
  After : Int
  /-- How the call `c.Next()` ends. -/
  Handler : Completion

/-- What one call of `Timing` does. -/
structure TimingResult where
  /-- The number of calls of `c.Next()`. -/
  handlerRuns : Nat
  /-- The calls of `util.PushMsg`: message and timeout. -/
  pushed : List (String × Int)
  /-- Whether a panic of the handler chain goes on into the caller of `Timing`. -/
  propagates : Bool
deriving DecidableEq, Repr

/-- The variable `timing` of `Timing` when the comparison is made. -/
def timingBudget (t : TimingInput) : Int :=
  let timing := 15 * 1000
  if t.Getenv ≠ "" then
    match t.Atoi t.Getenv with
    | some val => val
    | none => timing
  else timing

/-- The variable `elapsed` of `Timing`. -/
def timingElapsed (t : TimingInput) : Int :=
  wrapInt64 (t.After - t.Before)

/-- The function `Timing`.  It has no `defer`: when `c.Next()` panics, the statements
after the call are not run. -/
def Timing (env : Env) (t : TimingInput) (c : Context) : TimingResult :=
  match timingAPIs.lookup c.URLPath with
  | none =>
    { handlerRuns := 1, pushed := [], propagates := decide (t.Handler = .panicked) }
  | some tip =>
    let timing := timingBudget t
    match t.Handler with
    | .panicked => { handlerRuns := 1, pushed := [], propagates := true }
    | .returned =>
      let elapsed := timingElapsed t
      if timing < elapsed then
        { handlerRuns := 1, pushed := [(env.Language tip, 7000)], propagates := false }
      else { handlerRuns := 1, pushed := [], propagates := false }

/-! ## `Recover` -/

/-- The builtin `recover()` of Go: it returns the panic value, and thereby stops the
panicking sequence, when the goroutine is panicking and the call is made directly by a
deferred function; otherwise it returns `nil` and stops nothing. -/
def recoverBuiltin (panicking calledByDeferred : Bool) : Bool :=
  panicking && calledByDeferred

/-- The call `logging.Recover()`: the calls of `recover()` in its body are made by
`logging.Recover`, so they are made by a deferred function only when `logging.Recover` is
itself the function of the `defer` statement. -/
def loggingRecover (panicking isDeferredFunction : Bool) : Bool :=
  recoverBuiltin panicking isDeferredFunction

/-- What one call of `Recover` does. -/
structure RecoverResult where
  /-- The number of calls of `c.Next()`. -/
  handlerRuns : Nat
  /-- The status passed to `c.Status`. -/
  Status : Option Nat
  /-- Whether a panic of the handler chain goes on into the caller of `Recover`. -/
  propagates : Bool
deriving DecidableEq, Repr

/-- The function `Recover`.  Its deferred function is the closure
`func() { logging.Recover(); c.Status(...) }`, which runs when `c.Next()` has returned
or panicked and in which `logging.Recover()` is an ordinary call. -/
def Recover (handler : Completion) : RecoverResult :=
  let panicking := decide (handler = .panicked)
  let stopped := loggingRecover panicking false
  { handlerRuns := 1,
    Status := some StatusInternalServerError,
    propagates := panicking && !stopped }

/-! ## Sample environment and requests -/

/-- A desktop kernel protected by the secret `s3cr3t`, with API token `abc`. -/
def sampleEnv : Env where
  IsLocalHost := fun h =>
    h == "127.0.0.1" || HasPrefix h "127.0.0.1:" || h == "localhost" || HasPrefix h "localhost:"
  IsLocalHostname := fun h => h == "127.0.0.1" || h == "localhost"
  IsLocalOrigin := fun o =>
    o == "http://127.0.0.1" || HasPrefix o "http://127.0.0.1:" ||
    o == "http://localhost" || HasPrefix o "http://localhost:"
  NeedCaptcha := fun n => decide (3 < n)
  Container := "std"
  ContainerIOS := "ios"
  ContainerAndroid := "android"
  SiyuanAccessAuthCodeBypass := false
  AccessAuthCode := "s3cr3t"
  ApiToken := "abc"
  Language := fun _ => "msg"
  QueryEscape := fun s =>
    String.mk (s.data.flatMap (fun ch => if ch = '/' then "%2F".data else [ch]))
  ToLower := fun s => String.mk (s.data.map Char.toLower)

/-- The same kernel with no secret configured. -/
def openEnv : Env :=
  { sampleEnv with AccessAuthCode := "" }

/-- A request from a remote peer, with no credentials. -/
def remoteReq : Context where
  RemoteAddr := "203.0.113.7:51000"
  RequestURI := "/api/notebook/lsNotebooks"
  Method := "POST"
  URLPath := "/api/notebook/lsNotebooks"
  URLString := "/api/notebook/lsNotebooks"
  Header := []
  Query := []
  ClientIP := "203.0.113.7"
  BasicAuth := none
  IsWebsocket := false
  Session := ⟨"", ""⟩

/-- A request from the loopback interface, with no credentials. -/
def localReq : Context :=
  { remoteReq with RemoteAddr := "127.0.0.1:51000", ClientIP := "127.0.0.1" }

/-- The remote request with the API token `abc` in the `Authorization` header. -/
def tokenReq : Context :=
  { remoteReq with Header := [("Authorization", "Token abc")] }

/-- The remote request with the Basic credentials `user:s3cr3t`. -/
def basicReq : Context :=
  { remoteReq with
    Header := [("Authorization", "Basic dXNlcjpzM2NyM3Q=")],
    BasicAuth := some ("user", "s3cr3t") }

/-- The remote request with a session certified for `s3cr3t` and a wrong token. -/
def certifiedReq : Context :=
  { remoteReq with
    Header := [("Authorization", "Token xyz")],
    Session := ⟨"s3cr3t", ""⟩ }

/-- A page request of a browser on a remote machine. -/
def browserReq : Context :=
  { remoteReq with
    RequestURI := "/stage/build/desktop/"
    URLPath := "/stage/build/desktop/"
    URLString := "/stage/build/desktop/"
    Method := "GET"
    Header := [("User-Agent", "Mozilla/5.0")] }

/-- A request whose `Origin` header names a remote site. -/
def remoteOriginReq : Context :=
  { localReq with Header := [("Origin", "https://evil.example")] }

/-- A request from the loopback interface that carries `X-Forwarded-For: 8.8.8.8`, so
that the framework reports the client address `8.8.8.8`. -/
def proxiedReq : Context :=
  { localReq with Header := [("X-Forwarded-For", "8.8.8.8")], ClientIP := "8.8.8.8" }

/-- A request from the loopback interface for a file under `/assets/`. -/
def localAssetReq : Context :=
  { localReq with
    RequestURI := "/assets/a.png"
    URLPath := "/assets/a.png"
    URLString := "/assets/a.png"
    Method := "GET" }

/-- A request with Basic credentials in the `Authorization` header and the parameter
`token=abc` in the query string. -/
def basicWithQueryTokenReq : Context :=
  { basicReq with
    RequestURI := "/api/notebook/lsNotebooks?token=abc"
    URLString := "/api/notebook/lsNotebooks?token=abc"
    Query := [("token", "abc")] }

/-- A login with the right secret and no captcha in the body. -/
def loginInput : LoginInput where
  JsonArg := some [("authCode", .str "s3cr3t")]
  JsonArgRet := ⟨-1, "parses request failed"⟩
  Rand := "k3Xw9Qa"
  SaveFails := false

/-- A login with the right secret and an empty captcha. -/
def loginEmptyCaptchaInput : LoginInput :=
  { loginInput with JsonArg := some [("authCode", .str "s3cr3t"), ("captcha", .str "")] }

/-- A login with the right secret and the captcha `abcd`. -/
def loginCaptchaInput : LoginInput :=
  { loginInput with JsonArg := some [("authCode", .str "s3cr3t"), ("captcha", .str "abcd")] }

/-- The state after four failed logins, seen by a session that never asked for a
captcha image. -/
def freshSessionState : LoginState :=
  ⟨4, ⟨"", ""⟩⟩

/-- The state after four failed logins, with the captcha `ABCD` stored on the session. -/
def captchaState : LoginState :=
  ⟨4, ⟨"", "ABCD"⟩⟩

/-- A login with a wrong secret and no captcha in the body. -/
def wrongLoginInput : LoginInput :=
  { loginInput with JsonArg := some [("authCode", .str "guess")], Rand := "Zq81LmP" }

/-- A login with the right secret and a captcha that does not match `ABCD`. -/
def loginMismatchInput : LoginInput :=
  { loginInput with JsonArg := some [("authCode", .str "s3cr3t"), ("captcha", .str "wxyz")] }

/-- A login with the right secret and a captcha that is not a JSON string. -/
def loginBadCaptchaInput : LoginInput :=
  { loginInput with JsonArg := some [("authCode", .str "s3cr3t"), ("captcha", .other)] }

/-- A request for the SQL query interface. -/
def queryReq : Context :=
  { remoteReq with
    RequestURI := "/api/query/sql"
    URLPath := "/api/query/sql"
    URLString := "/api/query/sql" }

/-- A request that writes a block. -/
def insertReq : Context :=
  { remoteReq with
    RequestURI := "/api/block/insertBlock"
    URLPath := "/api/block/insertBlock"
    URLString := "/api/block/insertBlock" }

/-- A search request. -/
def searchReq : Context :=
  { remoteReq with
    RequestURI := "/api/search/fullTextSearchBlock"
    URLPath := "/api/search/fullTextSearchBlock"
    URLString := "/api/search/fullTextSearchBlock" }

/-- A handler that took 300 ms, measured with the budget overridden to 250 ms. -/
def slowTiming : TimingInput where
  Getenv := "250"
  Atoi := fun s => if s = "250" then some 250 else none
  Before := 1700000000000
  After := 1700000000300
  Handler := .returned

/-- The same call with a handler that panics after its 300 ms. -/
def panicTiming : TimingInput :=
  { slowTiming with Handler := .panicked }

/-- A request from the loopback interface that names a remote site in its `Host` field. -/
def hostSpoofReq : Context :=
  { localReq with Header := [("Host", "evil.example")] }

end SiYuan

namespace SiYuan

/-! ## Lemmas on strings -/

theorem hasPrefix_append (pre v : String) : HasPrefix (pre ++ v) pre = true := by
  simp [HasPrefix, String.data_append]

theorem trimPrefix_append (pre v : String) : TrimPrefix (pre ++ v) pre = v := by
  simp [TrimPrefix, hasPrefix_append, String.data_append]

theorem token_header_ne_empty (v : String) : "Token " ++ v ≠ "" := by
  intro h
  have h2 := congrArg String.length h
  rw [String.length_append] at h2
  have h3 : "Token ".length = 6 := by decide
  have h4 : "".length = 0 := by decide
  omega

/-- With the header `Authorization: Token v`, `checkToken` reports an attempt and
compares `v` with the API token. -/
theorem checkToken_of_token_header (env : Env) (c : Context) (v : String)
    (hhdr : GetHeader c "Authorization" = "Token " ++ v) :
    checkToken env c = (env.ApiToken == v, true) := by
  simp [checkToken, extractToken, hhdr, token_header_ne_empty, hasPrefix_append,
    trimPrefix_append]

/-! ## Token attempts -/

/-- C1: with a non-empty configured secret, a request that reaches the token step (its
URI under no always-public location, not let through by the local block, its session not
certified) and carries `Authorization: Token v` is passed through exactly when `v` is
the configured API token, and is otherwise aborted with status 401 and the JSON body
with code -1; nothing else of the request enters the outcome. -/
theorem checkAuth_token_conclusive (env : Env) (c : Context) (v : String)
    (hsecret : env.AccessAuthCode ≠ "")
    (hpublic : publicURI c = false)
    (hlocal : localExempt env c (isLocalhost env c) = false)
    (hcookie : checkCookies env c = false)
    (hhdr : GetHeader c "Authorization" = "Token " ++ v) :
    (CheckAuth env c = .next ↔ v = env.ApiToken) ∧
    (v ≠ env.ApiToken →
      CheckAuth env c = .abortJSON 401 ⟨-1, "Auth failed"⟩ ∧
      (CheckAuth env c).handlerRun = false) ∧
    CheckAuth env c =
      (if v = env.ApiToken then Outcome.next else .abortJSON 401 ⟨-1, "Auth failed"⟩) := by
  have htok := checkToken_of_token_header env c v hhdr
  have hmain : CheckAuth env c =
      (if v = env.ApiToken then Outcome.next else .abortJSON 401 ⟨-1, "Auth failed"⟩) := by
    by_cases hv : v = env.ApiToken
    · simp [CheckAuth, hsecret, hpublic, hlocal, hcookie, htok, hv]
    · have hv2 : ¬ env.ApiToken = v := fun h => hv h.symm
      simp [CheckAuth, hsecret, hpublic, hlocal, hcookie, htok, hv, hv2,
        abortWithUnauthorized, StatusUnauthorized]
  refine ⟨?_, ?_, hmain⟩
  · rw [hmain]
    by_cases hv : v = env.ApiToken <;> simp [hv]
  · intro hv
    rw [hmain]
    simp [hv, Outcome.handlerRun]

theorem checkAuth_token_conclusive_witness :
    (CheckAuth sampleEnv tokenReq = .next ↔ "abc" = sampleEnv.ApiToken) ∧
    ("abc" ≠ sampleEnv.ApiToken →
      CheckAuth sampleEnv tokenReq = .abortJSON 401 ⟨-1, "Auth failed"⟩ ∧
      (CheckAuth sampleEnv tokenReq).handlerRun = false) ∧
    CheckAuth sampleEnv tokenReq =
      (if "abc" = sampleEnv.ApiToken then Outcome.next
        else .abortJSON 401 ⟨-1, "Auth failed"⟩) :=
  checkAuth_token_conclusive sampleEnv tokenReq "abc" (by decide) (by decide) (by decide)
    (by decide) (by decide)

/-! ## Certified sessions -/

/-- C2: with a non-empty configured secret, a request whose session stores that secret
as its certified secret is passed through to the handler, whatever else the request
carries. -/
theorem checkAuth_certified_passes (env : Env) (c : Context)
    (hsecret : env.AccessAuthCode ≠ "")
    (hcert : c.Session.AccessAuthCode = env.AccessAuthCode) :
    CheckAuth env c = .next ∧ (CheckAuth env c).handlerRun = true := by
  have h : CheckAuth env c = .next := by
    unfold CheckAuth
    simp only [hsecret, if_false]
    by_cases h1 : publicURI c = true
    · simp [h1]
    · by_cases h2 : localExempt env c (isLocalhost env c) = true
      · simp [h1, h2]
      · simp [h1, h2, checkCookies, hcert]
  exact ⟨h, by rw [h]; rfl⟩

theorem checkAuth_certified_passes_witness :
    CheckAuth sampleEnv certifiedReq = .next ∧
    (CheckAuth sampleEnv certifiedReq).handlerRun = true :=
  checkAuth_certified_passes sampleEnv certifiedReq (by decide) (by decide)

/-! ## Open mode -/

/-- C3: with no secret configured and the bypass flag disabled, a request that
`isLocalhost` classifies as non-local is aborted with status 401 and a JSON body whose
code is -1, and the handler is not run. -/
theorem checkAuth_open_mode_rejects_non_local (env : Env) (c : Context)
    (hsecret : env.AccessAuthCode = "")
    (hbypass : env.SiyuanAccessAuthCodeBypass = false)
    (hremote : isLocalhost env c = false) :
    CheckAuth env c = .abortJSON 401 ⟨-1, openModeMsg⟩ ∧
    (CheckAuth env c).handlerRun = false := by
  have h : CheckAuth env c = .abortJSON 401 ⟨-1, openModeMsg⟩ := by
    simp [CheckAuth, hsecret, hbypass, hremote, StatusUnauthorized]
  exact ⟨h, by rw [h]; rfl⟩

theorem checkAuth_open_mode_rejects_non_local_witness :
    CheckAuth openEnv remoteOriginReq = .abortJSON 401 ⟨-1, openModeMsg⟩ ∧
    (CheckAuth openEnv remoteOriginReq).handlerRun = false :=
  checkAuth_open_mode_rejects_non_local openEnv remoteOriginReq (by decide) (by decide)
    (by decide)

/-- C4, as stated, fails: the request `proxiedReq` comes from the loopback interface
with no `Host`, `Origin` or `X-Forwarded-Host` header, no secret is configured, and
`CheckAuth` answers 401 because the client address is not a local host name. -/
theorem checkAuth_open_mode_local_counterexample :
    openEnv.AccessAuthCode = "" ∧
    openEnv.IsLocalHost proxiedReq.RemoteAddr = true ∧
    GetHeader proxiedReq "Host" = "" ∧
    GetHeader proxiedReq "Origin" = "" ∧
    GetHeader proxiedReq "X-Forwarded-Host" = "" ∧
    CheckAuth openEnv proxiedReq = .abortJSON 401 ⟨-1, openModeMsg⟩ ∧
    CheckAuth openEnv proxiedReq ≠ .next := by
  decide

/-- C4, amended: with no secret configured, a request is passed through to the handler
when its remote address is a local host, each of the headers `Host`, `Origin` and
`X-Forwarded-Host` is absent or local (`Origin`: local, or of the scheme
`chrome-extension://`), and the client address the framework reports is empty or a
local host name. -/
theorem checkAuth_open_mode_admits_local (env : Env) (c : Context)
    (hsecret : env.AccessAuthCode = "")
    (hremote : env.IsLocalHost c.RemoteAddr = true)
    (hhost : GetHeader c "Host" = "" ∨ env.IsLocalHost (GetHeader c "Host") = true)
    (horigin : GetHeader c "Origin" = "" ∨ env.IsLocalOrigin (GetHeader c "Origin") = true ∨
      HasPrefix (GetHeader c "Origin") "chrome-extension://" = true)
    (hfwd : GetHeader c "X-Forwarded-Host" = "" ∨
      env.IsLocalHost (GetHeader c "X-Forwarded-Host") = true)
    (hclient : c.ClientIP = "" ∨ env.IsLocalHostname c.ClientIP = true) :
    CheckAuth env c = .next ∧ (CheckAuth env c).handlerRun = true := by
  have hloc : isLocalhost env c = true := by
    unfold isLocalhost
    rcases hhost with hh | hh <;> rcases horigin with ho | ho | ho <;>
      rcases hfwd with hf | hf <;> simp [hremote, hh, ho, hf]
  have h : CheckAuth env c = .next := by
    unfold CheckAuth
    simp only [hsecret, if_true]
    by_cases hb : env.SiyuanAccessAuthCodeBypass = true
    · simp [hb]
    · rcases hhost with hh | hh <;> rcases horigin with ho | ho | ho <;>
        rcases hfwd with hf | hf <;> rcases hclient with hc | hc <;>
        simp [hb, hloc, hh, ho, hf, hc]
  exact ⟨h, by rw [h]; rfl⟩

theorem checkAuth_open_mode_admits_local_witness :
    CheckAuth openEnv localReq = .next ∧ (CheckAuth openEnv localReq).handlerRun = true :=
  checkAuth_open_mode_admits_local openEnv localReq (by decide) (by decide)
    (Or.inl (by decide)) (Or.inl (by decide)) (Or.inl (by decide)) (Or.inr (by decide))

/-! ## `isLocalhost` -/

/-- The value `c.GetHeader("Host")` is empty for every request. -/
theorem getHeader_host (c : Context) : GetHeader c "Host" = "" := by
  simp [GetHeader]

/-- C5 at a concrete request: `hostSpoofReq` comes from the loopback interface and
carries the field `Host: evil.example`, which is not a local host; `c.GetHeader("Host")`
is empty all the same, and `isLocalhost` answers true. -/
theorem isLocalhost_ignores_host :
    sampleEnv.IsLocalHost hostSpoofReq.RemoteAddr = true ∧
    hostSpoofReq.Header.lookup "Host" = some "evil.example" ∧
    sampleEnv.IsLocalHost "evil.example" = false ∧
    GetHeader hostSpoofReq "Host" = "" ∧
    GetHeader hostSpoofReq "Origin" = "" ∧
    GetHeader hostSpoofReq "X-Forwarded-Host" = "" ∧
    isLocalhost sampleEnv hostSpoofReq = true := by
  decide

/-- The value of `isLocalhost` in terms of what its four checks read: the remote address
is a local host, `c.GetHeader("Host")` is empty or a local host, `c.GetHeader("Origin")`
is empty or a local origin or starts with `chrome-extension://`, and
`c.GetHeader("X-Forwarded-Host")` is empty or a local host. -/
theorem isLocalhost_iff (env : Env) (c : Context) :
    isLocalhost env c = true ↔
      env.IsLocalHost c.RemoteAddr = true ∧
      (GetHeader c "Host" = "" ∨ env.IsLocalHost (GetHeader c "Host") = true) ∧
      (GetHeader c "Origin" = "" ∨ env.IsLocalOrigin (GetHeader c "Origin") = true ∨
        HasPrefix (GetHeader c "Origin") "chrome-extension://" = true) ∧
      (GetHeader c "X-Forwarded-Host" = "" ∨
        env.IsLocalHost (GetHeader c "X-Forwarded-Host") = true) := by
  unfold isLocalhost
  by_cases h1 : env.IsLocalHost c.RemoteAddr = true
  · by_cases h2 : GetHeader c "Host" = ""
    · by_cases h3 : GetHeader c "Origin" = ""
      · by_cases h4 : GetHeader c "X-Forwarded-Host" = "" <;> simp [h1, h2, h3, h4]
      · by_cases h4 : GetHeader c "X-Forwarded-Host" = "" <;> simp [h1, h2, h3, h4]
    · by_cases h3 : GetHeader c "Origin" = ""
      · by_cases h4 : GetHeader c "X-Forwarded-Host" = "" <;> simp [h1, h2, h3, h4]
      · by_cases h4 : GetHeader c "X-Forwarded-Host" = "" <;> simp [h1, h2, h3, h4]
  · simp [h1]

/-! ## Requests without credentials -/

/-- C6, as stated, fails: the request `localAssetReq` comes from the loopback interface,
carries no credentials and no certified session, its URI `/assets/a.png` is under none
of the four always-public locations, is none of the three local system operations and is
not the login page, and `CheckAuth` passes it through to the handler. -/
theorem checkAuth_credential_free_counterexample :
    sampleEnv.AccessAuthCode ≠ "" ∧
    checkCookies sampleEnv localAssetReq = false ∧
    (checkToken sampleEnv localAssetReq).2 = false ∧
    (checkBasic sampleEnv localAssetReq).2 = false ∧
    localAssetReq.URLPath = localAssetReq.RequestURI ∧
    HasPrefix localAssetReq.RequestURI "/appearance/" = false ∧
    HasPrefix localAssetReq.RequestURI "/stage/build/export/" = false ∧
    HasPrefix localAssetReq.RequestURI "/stage/build/fonts/" = false ∧
    HasPrefix localAssetReq.RequestURI "/stage/protyle/" = false ∧
    HasPrefix localAssetReq.RequestURI "/api/system/exit" = false ∧
    HasPrefix localAssetReq.RequestURI "/api/system/getNetwork" = false ∧
    HasPrefix localAssetReq.RequestURI "/api/sync/performSync" = false ∧
    localAssetReq.URLPath ≠ "/check-auth" ∧
    CheckAuth sampleEnv localAssetReq = .next := by
  decide

/-- C6, amended: with a non-empty configured secret, a session that is not certified, no
token attempted and no Basic credentials attempted, `CheckAuth` passes the request
through exactly when (a) its request URI starts with one of `/appearance/`,
`/stage/build/export/`, `/stage/build/fonts/`, `/stage/protyle/`, or (b) the request is
local and its request URI starts with `/assets/`, `/api/system/exit`,
`/api/system/getNetwork`, or, on the iOS and Android containers, `/api/sync/performSync`,
or (c) its path is `/check-auth`; every other such request is redirected with status 302
or rejected with status 401 and a JSON body with code -1. -/
theorem checkAuth_credential_free (env : Env) (c : Context)
    (hsecret : env.AccessAuthCode ≠ "")
    (hcookie : checkCookies env c = false)
    (htoken : (checkToken env c).2 = false)
    (hbasic : (checkBasic env c).2 = false) :
    (CheckAuth env c = .next ↔
      (HasPrefix c.RequestURI "/appearance/" = true ∨
        HasPrefix c.RequestURI "/stage/build/export/" = true ∨
        HasPrefix c.RequestURI "/stage/build/fonts/" = true ∨
        HasPrefix c.RequestURI "/stage/protyle/" = true) ∨
      (isLocalhost env c = true ∧
        (HasPrefix c.RequestURI "/assets/" = true ∨
          HasPrefix c.RequestURI "/api/system/exit" = true ∨
          HasPrefix c.RequestURI "/api/system/getNetwork" = true ∨
          (HasPrefix c.RequestURI "/api/sync/performSync" = true ∧
            (env.ContainerIOS = env.Container ∨ env.ContainerAndroid = env.Container)))) ∨
      c.URLPath = "/check-auth") ∧
    (CheckAuth env c ≠ .next →
      (∃ location, CheckAuth env c = .redirect 302 location) ∨
      (∃ msg, CheckAuth env c = .abortJSON 401 ⟨-1, msg⟩)) := by
  have hpub : publicURI c = true ↔
      (HasPrefix c.RequestURI "/appearance/" = true ∨
        HasPrefix c.RequestURI "/stage/build/export/" = true ∨
        HasPrefix c.RequestURI "/stage/build/fonts/" = true ∨
        HasPrefix c.RequestURI "/stage/protyle/" = true) := by
    simp [publicURI, or_assoc]
  have hloc : localExempt env c (isLocalhost env c) = true ↔
      (isLocalhost env c = true ∧
        (HasPrefix c.RequestURI "/assets/" = true ∨
          HasPrefix c.RequestURI "/api/system/exit" = true ∨
          HasPrefix c.RequestURI "/api/system/getNetwork" = true ∨
          (HasPrefix c.RequestURI "/api/sync/performSync" = true ∧
            (env.ContainerIOS = env.Container ∨ env.ContainerAndroid = env.Container)))) := by
    unfold localExempt
    by_cases h0 : isLocalhost env c = true
    · by_cases h1 : HasPrefix c.RequestURI "/assets/" = true
      · simp [h0, h1]
      · by_cases h2 : HasPrefix c.RequestURI "/api/system/exit" = true
        · simp [h0, h1, h2]
        · by_cases h3 : HasPrefix c.RequestURI "/api/system/getNetwork" = true
          · simp [h0, h1, h2, h3]
          · by_cases h4 : HasPrefix c.RequestURI "/api/sync/performSync" = true
            · simp [h0, h1, h2, h3, h4]
            · simp [h0, h1, h2, h3, h4]
    · simp [h0]
  rw [← hpub, ← hloc]
  by_cases h1 : publicURI c = true
  · simp [CheckAuth, hsecret, h1]
  · by_cases h2 : localExempt env c (isLocalhost env c) = true
    · simp [CheckAuth, hsecret, h1, h2]
    · by_cases h3 : c.URLPath = "/check-auth"
      · simp [CheckAuth, hsecret, h1, h2, hcookie, htoken, hbasic, h3]
      · have hrest : CheckAuth env c = unauthenticated env c false := by
          simp [CheckAuth, hsecret, h1, h2, hcookie, htoken, hbasic, h3]
        rw [hrest]
        unfold unauthenticated
        by_cases h4 : (HasPrefix (GetHeader c "User-Agent") "SiYuan/" ||
            HasPrefix (GetHeader c "User-Agent") "Mozilla/") = true
        · by_cases h5 : c.Method ≠ "GET" ∨ c.IsWebsocket = true
          · simp only [h4, h5]
            simp [h1, h2, h3, StatusUnauthorized]
          · simp only [h4, h5]
            simp [h1, h2, h3, StatusFound]
        · simp only [h4]
          simp [h1, h2, h3, abortWithUnauthorized, StatusUnauthorized]

theorem checkAuth_credential_free_witness :
    (CheckAuth sampleEnv localAssetReq = .next ↔
      (HasPrefix localAssetReq.RequestURI "/appearance/" = true ∨
        HasPrefix localAssetReq.RequestURI "/stage/build/export/" = true ∨
        HasPrefix localAssetReq.RequestURI "/stage/build/fonts/" = true ∨
        HasPrefix localAssetReq.RequestURI "/stage/protyle/" = true) ∨
      (isLocalhost sampleEnv localAssetReq = true ∧
        (HasPrefix localAssetReq.RequestURI "/assets/" = true ∨
          HasPrefix localAssetReq.RequestURI "/api/system/exit" = true ∨
          HasPrefix localAssetReq.RequestURI "/api/system/getNetwork" = true ∨
          (HasPrefix localAssetReq.RequestURI "/api/sync/performSync" = true ∧
            (sampleEnv.ContainerIOS = sampleEnv.Container ∨
              sampleEnv.ContainerAndroid = sampleEnv.Container)))) ∨
      localAssetReq.URLPath = "/check-auth") ∧
    (CheckAuth sampleEnv localAssetReq ≠ .next →
      (∃ location, CheckAuth sampleEnv localAssetReq = .redirect 302 location) ∨
      (∃ msg, CheckAuth sampleEnv localAssetReq = .abortJSON 401 ⟨-1, msg⟩)) :=
  checkAuth_credential_free sampleEnv localAssetReq (by decide) (by decide) (by decide)
    (by decide)

/-! ## `checkToken` -/

theorem hasPrefix_ne_empty (s : String) (h : HasPrefix s "Token " = true) : s ≠ "" := by
  intro hs
  rw [hs] at h
  revert h
  decide

/-- C7, as stated, fails: the request `basicWithQueryTokenReq` has the parameter `token`
in its query string, and `checkToken` does not report an attempt, because its
`Authorization` header is non-empty and does not start with `Token `. -/
theorem checkToken_attempted_counterexample :
    (GetQuery basicWithQueryTokenReq "token").2 = true ∧
    basicWithQueryTokenReq.Query.lookup "token" = some "abc" ∧
    GetHeader basicWithQueryTokenReq "Authorization" = "Basic dXNlcjpzM2NyM3Q=" ∧
    (checkToken sampleEnv basicWithQueryTokenReq).2 = false := by
  decide

/-- C7, amended: `checkToken` reports an attempt exactly when the `Authorization` header
starts with `Token `, or the `Authorization` header is empty and the query string has a
parameter `token`; and when it does, `certified` holds exactly when the extracted token
(the header without its leading `Token `, respectively the value of the parameter)
equals the configured API token. -/
theorem checkToken_attempted_iff (env : Env) (c : Context) :
    ((checkToken env c).2 = true ↔
      HasPrefix (GetHeader c "Authorization") "Token " = true ∨
      (GetHeader c "Authorization" = "" ∧ ∃ v, c.Query.lookup "token" = some v)) ∧
    (HasPrefix (GetHeader c "Authorization") "Token " = true →
      ((checkToken env c).1 = true ↔
        TrimPrefix (GetHeader c "Authorization") "Token " = env.ApiToken)) ∧
    (GetHeader c "Authorization" = "" → ∀ v, c.Query.lookup "token" = some v →
      ((checkToken env c).1 = true ↔ v = env.ApiToken)) := by
  refine ⟨?_, ?_, ?_⟩
  · by_cases h1 : GetHeader c "Authorization" = ""
    · have h2 : HasPrefix "" "Token " = false := by decide
      cases hq : c.Query.lookup "token" <;>
        simp [checkToken, extractToken, GetQuery, h1, h2, hq]
    · by_cases h2 : HasPrefix (GetHeader c "Authorization") "Token " = true <;>
        simp [checkToken, extractToken, h1, h2]
  · intro h
    have h1 := hasPrefix_ne_empty _ h
    simp only [checkToken, extractToken, h1, h, ne_eq, not_false_eq_true, if_true,
      beq_iff_eq]
    exact eq_comm
  · intro h1 v hv
    simp only [checkToken, extractToken, GetQuery, h1, hv, ne_eq, not_true_eq_false,
      if_false, beq_iff_eq]
    exact eq_comm

/-! ## Basic attempts -/

/-- C8: with a non-empty configured secret, a request that reaches the Basic step (not
let through by the public or the local block, its session not certified, no token
attempted) and carries well-formed Basic credentials is passed through exactly when the
password is the configured secret, whatever the user name, and is otherwise aborted with
status 401 and the JSON body with code -1; it is never redirected. -/
theorem checkAuth_basic_conclusive (env : Env) (c : Context) (username password : String)
    (hsecret : env.AccessAuthCode ≠ "")
    (hpublic : publicURI c = false)
    (hlocal : localExempt env c (isLocalhost env c) = false)
    (hcookie : checkCookies env c = false)
    (htoken : (checkToken env c).2 = false)
    (hbasic : c.BasicAuth = some (username, password)) :
    (CheckAuth env c = .next ↔ password = env.AccessAuthCode) ∧
    (password ≠ env.AccessAuthCode →
      CheckAuth env c = .abortJSON 401 ⟨-1, "Auth failed"⟩ ∧
      (CheckAuth env c).handlerRun = false) ∧
    (∀ status location, CheckAuth env c ≠ .redirect status location) := by
  have hmain : CheckAuth env c =
      (if password = env.AccessAuthCode then Outcome.next
        else .abortJSON 401 ⟨-1, "Auth failed"⟩) := by
    by_cases hp : password = env.AccessAuthCode
    · simp [CheckAuth, hsecret, hpublic, hlocal, hcookie, htoken, checkBasic, hbasic, hp]
    · have hp2 : ¬ env.AccessAuthCode = password := fun h => hp h.symm
      simp [CheckAuth, hsecret, hpublic, hlocal, hcookie, htoken, checkBasic, hbasic, hp,
        hp2, abortWithUnauthorized, StatusUnauthorized]
  rw [hmain]
  by_cases hp : password = env.AccessAuthCode <;> simp [hp, Outcome.handlerRun]

theorem checkAuth_basic_conclusive_witness :
    (CheckAuth sampleEnv basicReq = .next ↔ "s3cr3t" = sampleEnv.AccessAuthCode) ∧
    ("s3cr3t" ≠ sampleEnv.AccessAuthCode →
      CheckAuth sampleEnv basicReq = .abortJSON 401 ⟨-1, "Auth failed"⟩ ∧
      (CheckAuth sampleEnv basicReq).handlerRun = false) ∧
    (∀ status location, CheckAuth sampleEnv basicReq ≠ .redirect status location) :=
  checkAuth_basic_conclusive sampleEnv basicReq "user" "s3cr3t" (by decide) (by decide)
    (by decide) (by decide) (by decide) (by decide)

/-! ## The final step -/

/-- C9: a request that reaches the last step of `CheckAuth` (secret configured, not let
through by the public or the local block, session not certified, no token and no Basic
credentials attempted, path other than `/check-auth`) is answered with a 302 redirect to
`/check-auth?to=` followed by the query-escaped request URL exactly when its User-Agent
starts with `SiYuan/` or `Mozilla/`, its method is GET and it is not a WebSocket
upgrade; otherwise it is answered with status 401 and a JSON body with code -1; in both
cases the handler is not run. -/
theorem checkAuth_final_step (env : Env) (c : Context)
    (hsecret : env.AccessAuthCode ≠ "")
    (hpublic : publicURI c = false)
    (hlocal : localExempt env c (isLocalhost env c) = false)
    (hcookie : checkCookies env c = false)
    (htoken : (checkToken env c).2 = false)
    (hbasic : (checkBasic env c).2 = false)
    (hpath : c.URLPath ≠ "/check-auth") :
    ((∃ status location, CheckAuth env c = .redirect status location) ↔
      ((HasPrefix (GetHeader c "User-Agent") "SiYuan/" = true ∨
          HasPrefix (GetHeader c "User-Agent") "Mozilla/" = true) ∧
        c.Method = "GET" ∧ c.IsWebsocket = false)) ∧
    (((HasPrefix (GetHeader c "User-Agent") "SiYuan/" = true ∨
          HasPrefix (GetHeader c "User-Agent") "Mozilla/" = true) ∧
        c.Method = "GET" ∧ c.IsWebsocket = false) →
      CheckAuth env c = .redirect 302 ("/check-auth?to=" ++ env.QueryEscape c.URLString)) ∧
    (¬ ((HasPrefix (GetHeader c "User-Agent") "SiYuan/" = true ∨
          HasPrefix (GetHeader c "User-Agent") "Mozilla/" = true) ∧
        c.Method = "GET" ∧ c.IsWebsocket = false) →
      ∃ msg, CheckAuth env c = .abortJSON 401 ⟨-1, msg⟩) ∧
    (CheckAuth env c).handlerRun = false := by
  have hrest : CheckAuth env c = unauthenticated env c false := by
    simp [CheckAuth, hsecret, hpublic, hlocal, hcookie, htoken, hbasic, hpath]
  have hlocn : loginLocation env c = "/check-auth?to=" ++ env.QueryEscape c.URLString := by
    simp only [loginLocation]
    rw [← String.append_assoc, ← String.append_assoc]
    rfl
  rw [hrest]
  unfold unauthenticated
  by_cases h4 : (HasPrefix (GetHeader c "User-Agent") "SiYuan/" ||
      HasPrefix (GetHeader c "User-Agent") "Mozilla/") = true
  · have h4b : HasPrefix (GetHeader c "User-Agent") "SiYuan/" = true ∨
        HasPrefix (GetHeader c "User-Agent") "Mozilla/" = true := by
      simpa using h4
    by_cases h5 : c.Method ≠ "GET" ∨ c.IsWebsocket = true
    · have h6 : ¬ (c.Method = "GET" ∧ c.IsWebsocket = false) := by
        rcases h5 with h | h
        · exact fun hh => h hh.1
        · exact fun hh => by simp [h] at hh
      simp only [h4, h5]
      simp [h4b, h6, Outcome.handlerRun, StatusUnauthorized]
    · have h6 : c.Method = "GET" ∧ c.IsWebsocket = false := by
        constructor
        · by_contra hm; exact h5 (Or.inl hm)
        · cases hw : c.IsWebsocket
          · rfl
          · exact absurd (Or.inr hw) h5
      simp only [h4, h5]
      simp [h4b, h6, hlocn, Outcome.handlerRun, StatusFound]
  · have h4b : ¬ (HasPrefix (GetHeader c "User-Agent") "SiYuan/" = true ∨
        HasPrefix (GetHeader c "User-Agent") "Mozilla/" = true) := by
      simpa using h4
    simp only [h4]
    simp [h4b, abortWithUnauthorized, Outcome.handlerRun, StatusUnauthorized]

theorem checkAuth_final_step_witness :
    ((∃ status location, CheckAuth sampleEnv browserReq = .redirect status location) ↔
      ((HasPrefix (GetHeader browserReq "User-Agent") "SiYuan/" = true ∨
          HasPrefix (GetHeader browserReq "User-Agent") "Mozilla/" = true) ∧
        browserReq.Method = "GET" ∧ browserReq.IsWebsocket = false)) ∧
    (((HasPrefix (GetHeader browserReq "User-Agent") "SiYuan/" = true ∨
          HasPrefix (GetHeader browserReq "User-Agent") "Mozilla/" = true) ∧
        browserReq.Method = "GET" ∧ browserReq.IsWebsocket = false) →
      CheckAuth sampleEnv browserReq =
        .redirect 302 ("/check-auth?to=" ++ sampleEnv.QueryEscape browserReq.URLString)) ∧
    (¬ ((HasPrefix (GetHeader browserReq "User-Agent") "SiYuan/" = true ∨
          HasPrefix (GetHeader browserReq "User-Agent") "Mozilla/" = true) ∧
        browserReq.Method = "GET" ∧ browserReq.IsWebsocket = false) →
      ∃ msg, CheckAuth sampleEnv browserReq = .abortJSON 401 ⟨-1, msg⟩) ∧
    (CheckAuth sampleEnv browserReq).handlerRun = false :=
  checkAuth_final_step sampleEnv browserReq (by decide) (by decide) (by decide) (by decide)
    (by decide) (by decide) (by decide)

/-! ## Login -/

/-- C10, as stated, fails: in the state `freshSessionState` a captcha is required and the
session stores the empty captcha text; the login `loginEmptyCaptchaInput` submits the
configured secret and the captcha `""`, which equals the stored text ignoring case, and
`LoginAuth` answers code 1, leaves the counter at 4 and does not certify the session. -/
theorem loginAuth_success_counterexample :
    loginEmptyCaptchaInput.JsonArg =
      some [("authCode", .str sampleEnv.AccessAuthCode), ("captcha", .str "")] ∧
    sampleEnv.NeedCaptcha freshSessionState.WrongAuthCount = true ∧
    sampleEnv.ToLower "" = sampleEnv.ToLower freshSessionState.Session.Captcha ∧
    (LoginAuth sampleEnv loginEmptyCaptchaInput freshSessionState).ret.Code = 1 ∧
    (LoginAuth sampleEnv loginEmptyCaptchaInput freshSessionState).state.WrongAuthCount = 4 ∧
    (LoginAuth sampleEnv loginEmptyCaptchaInput freshSessionState).state.Session.AccessAuthCode
      ≠ sampleEnv.AccessAuthCode := by
  decide

/-- C10, amended: when the submitted secret equals the configured secret and the captcha
gate is passed (a captcha is not required, or the submitted captcha is a non-empty
string that equals the session captcha text ignoring case), then after `LoginAuth` the
failed-attempt counter is zero, the certified secret of the session is the configured
secret (so `checkCookies` holds on that session), the captcha text of the session is the
freshly generated one, and the result code is 0. -/
theorem loginAuth_success (env : Env) (inp : LoginInput) (st : LoginState)
    (arg : List (String × JsonVal)) (authCode : String)
    (harg : inp.JsonArg = some arg)
    (hcode : arg.lookup "authCode" = some (.str authCode))
    (hsecret : authCode = env.AccessAuthCode)
    (hgate : env.NeedCaptcha st.WrongAuthCount = false ∨
      ∃ inputCaptcha, arg.lookup "captcha" = some (.str inputCaptcha) ∧ inputCaptcha ≠ "" ∧
        env.ToLower inputCaptcha = env.ToLower st.Session.Captcha) :
    (LoginAuth env inp st).state.WrongAuthCount = 0 ∧
    (LoginAuth env inp st).state.Session.AccessAuthCode = env.AccessAuthCode ∧
    (∀ c : Context, c.Session = (LoginAuth env inp st).state.Session →
      checkCookies env c = true) ∧
    (LoginAuth env inp st).state.Session.Captcha = inp.Rand ∧
    (LoginAuth env inp st).ret.Code = 0 ∧
    (LoginAuth env inp st).panicked = false := by
  have hcheck : loginCheckCode env inp st arg =
      { state := ⟨0, { AccessAuthCode := authCode, Captcha := inp.Rand }⟩,
        ret := ⟨0, ""⟩, Status := saveStatus inp, panicked := false } := by
    simp [loginCheckCode, hcode, hsecret]
  have hlogin : LoginAuth env inp st = loginCheckCode env inp st arg := by
    rcases hgate with hg | ⟨inputCaptcha, hc, hne, heq⟩
    · simp [LoginAuth, harg, hg]
    · by_cases hg : env.NeedCaptcha st.WrongAuthCount = true
      · simp [LoginAuth, harg, hg, hc, hne, heq]
      · simp [LoginAuth, harg, hg]
  rw [hlogin, hcheck]
  refine ⟨rfl, hsecret, ?_, rfl, rfl, rfl⟩
  intro c hc
  simp [checkCookies, hc, hsecret]

theorem loginAuth_success_witness :
    (LoginAuth sampleEnv loginCaptchaInput captchaState).state.WrongAuthCount = 0 ∧
    (LoginAuth sampleEnv loginCaptchaInput captchaState).state.Session.AccessAuthCode =
      sampleEnv.AccessAuthCode ∧
    (∀ c : Context, c.Session = (LoginAuth sampleEnv loginCaptchaInput captchaState).state.Session →
      checkCookies sampleEnv c = true) ∧
    (LoginAuth sampleEnv loginCaptchaInput captchaState).state.Session.Captcha =
      loginCaptchaInput.Rand ∧
    (LoginAuth sampleEnv loginCaptchaInput captchaState).ret.Code = 0 ∧
    (LoginAuth sampleEnv loginCaptchaInput captchaState).panicked = false :=
  loginAuth_success sampleEnv loginCaptchaInput captchaState
    [("authCode", .str "s3cr3t"), ("captcha", .str "abcd")] "s3cr3t" (by decide) (by decide)
    (by decide) (Or.inr ⟨"abcd", by decide, by decide, by decide⟩)


/-! ## Failed logins -/

/-- A call of `LoginAuth` that passes the captcha gate continues with the comparison of
the secret. -/
theorem loginAuth_of_gate (env : Env) (inp : LoginInput) (st : LoginState)
    (arg : List (String × JsonVal))
    (harg : inp.JsonArg = some arg)
    (hgate : env.NeedCaptcha st.WrongAuthCount = false ∨
      ∃ inputCaptcha, arg.lookup "captcha" = some (.str inputCaptcha) ∧ inputCaptcha ≠ "" ∧
        env.ToLower inputCaptcha = env.ToLower st.Session.Captcha) :
    LoginAuth env inp st = loginCheckCode env inp st arg := by
  rcases hgate with hg | ⟨inputCaptcha, hc, hne, heq⟩
  · simp [LoginAuth, harg, hg]
  · by_cases hg : env.NeedCaptcha st.WrongAuthCount = true
    · simp [LoginAuth, harg, hg, hc, hne, heq]
    · simp [LoginAuth, harg, hg]

/-- The state and the answer after a wrong secret. -/
theorem loginCheckCode_wrong (env : Env) (inp : LoginInput) (st : LoginState)
    (arg : List (String × JsonVal)) (authCode : String)
    (hcode : arg.lookup "authCode" = some (.str authCode))
    (hne : authCode ≠ env.AccessAuthCode) :
    loginCheckCode env inp st arg =
      { state := ⟨incInt st.WrongAuthCount, { st.Session with Captcha := inp.Rand }⟩,
        ret := ⟨if env.NeedCaptcha (incInt st.WrongAuthCount) then 1 else -1, env.Language 83⟩,
        Status := saveStatus inp,
        panicked := false } := by
  have hne2 : ¬ env.AccessAuthCode = authCode := fun h => hne h.symm
  simp [loginCheckCode, hcode, hne2]

theorem incInt_of_lt (n : Int) (h : n < maxInt) : incInt n = n + 1 := by
  unfold incInt
  unfold maxInt at h
  have h2 : n ≠ 9223372036854775807 := by omega
  simp [h2]

/-- The counter after a run of wrong secrets, none of which meets the captcha gate. -/
theorem loginAuthSeq_wrong (env : Env) :
    ∀ (inps : List LoginInput) (st : LoginState),
      (∀ inp ∈ inps, ∃ arg authCode, inp.JsonArg = some arg ∧
        arg.lookup "authCode" = some (.str authCode) ∧ authCode ≠ env.AccessAuthCode) →
      (∀ k : Nat, k < inps.length → env.NeedCaptcha (st.WrongAuthCount + k) = false) →
      st.WrongAuthCount + inps.length ≤ maxInt →
      (LoginAuthSeq env inps st).WrongAuthCount = st.WrongAuthCount + inps.length := by
  intro inps
  induction inps with
  | nil => intro st _ _ _; simp [LoginAuthSeq]
  | cons inp rest ih =>
    intro st hall hneed hmax
    obtain ⟨arg, authCode, harg, hcode, hne⟩ := hall inp (List.mem_cons_self _ _)
    have h0 : env.NeedCaptcha st.WrongAuthCount = false := by
      have := hneed 0 (by simp)
      simpa using this
    have hlt : st.WrongAuthCount < maxInt := by
      simp only [List.length_cons, Nat.cast_add, Nat.cast_one] at hmax
      omega
    have hstep : (LoginAuth env inp st).state.WrongAuthCount = st.WrongAuthCount + 1 := by
      rw [loginAuth_of_gate env inp st arg harg (Or.inl h0),
        loginCheckCode_wrong env inp st arg authCode hcode hne]
      exact incInt_of_lt _ hlt
    have hrest := ih (LoginAuth env inp st).state
      (fun i hi => hall i (List.mem_cons_of_mem _ hi))
      (by
        intro k hk
        rw [hstep]
        have := hneed (k + 1) (by simp; omega)
        rw [← this]
        congr 1
        push_cast
        ring)
      (by
        rw [hstep]
        simp only [List.length_cons, Nat.cast_add, Nat.cast_one] at hmax
        omega)
    simp only [LoginAuthSeq]
    rw [hrest, hstep]
    simp only [List.length_cons, Nat.cast_add, Nat.cast_one]
    ring

/-- C11: a call of `LoginAuth` that is not stopped by the captcha gate and submits a
secret other than the configured one raises the failed-attempt counter by exactly one
(the counter being below the largest Go `int`), stores a fresh captcha text on the
session and answers a non-zero code, 1 if a captcha is now required and -1 otherwise;
and starting from counter 0, after each of N consecutive wrong-secret attempts made while
no captcha is required the counter equals the number of attempts made so far. -/
theorem loginAuth_wrong_secret (env : Env) :
    (∀ (inp : LoginInput) (st : LoginState) (arg : List (String × JsonVal))
        (authCode : String),
      inp.JsonArg = some arg →
      arg.lookup "authCode" = some (.str authCode) →
      authCode ≠ env.AccessAuthCode →
      (env.NeedCaptcha st.WrongAuthCount = false ∨
        ∃ inputCaptcha, arg.lookup "captcha" = some (.str inputCaptcha) ∧
          inputCaptcha ≠ "" ∧ env.ToLower inputCaptcha = env.ToLower st.Session.Captcha) →
      st.WrongAuthCount < maxInt →
      (LoginAuth env inp st).state.WrongAuthCount = st.WrongAuthCount + 1 ∧
      (LoginAuth env inp st).state.Session.Captcha = inp.Rand ∧
      (LoginAuth env inp st).ret.Code ≠ 0 ∧
      (LoginAuth env inp st).ret.Code =
        (if env.NeedCaptcha (st.WrongAuthCount + 1) then 1 else -1)) ∧
    (∀ (inps : List LoginInput) (session : WorkspaceSession),
      (∀ inp ∈ inps, ∃ arg authCode, inp.JsonArg = some arg ∧
        arg.lookup "authCode" = some (.str authCode) ∧ authCode ≠ env.AccessAuthCode) →
      (∀ k : Nat, k < inps.length → env.NeedCaptcha k = false) →
      (inps.length : Int) ≤ maxInt →
      ∀ k : Nat, k ≤ inps.length →
        (LoginAuthSeq env (inps.take k) ⟨0, session⟩).WrongAuthCount = k) := by
  constructor
  · intro inp st arg authCode harg hcode hne hgate hlt
    rw [loginAuth_of_gate env inp st arg harg hgate,
      loginCheckCode_wrong env inp st arg authCode hcode hne, incInt_of_lt _ hlt]
    refine ⟨rfl, rfl, ?_, rfl⟩
    show (if env.NeedCaptcha (st.WrongAuthCount + 1) = true then (1 : Int) else -1) ≠ 0
    split <;> decide
  · intro inps session hall hneed hmax k hk
    have hlen : (inps.take k).length = k := by simp [List.length_take, hk]
    have h := loginAuthSeq_wrong env (inps.take k) ⟨0, session⟩
      (fun i hi => hall i (List.mem_of_mem_take hi))
      (by
        intro j hj
        rw [hlen] at hj
        have := hneed j (by omega)
        simpa using this)
      (by
        rw [hlen]
        have : (k : Int) ≤ inps.length := by exact_mod_cast hk
        simp only [zero_add]
        omega)
    rw [h, hlen]
    simp

theorem loginAuth_wrong_secret_witness :
    ((LoginAuth sampleEnv wrongLoginInput ⟨3, ⟨"", ""⟩⟩).state.WrongAuthCount = 3 + 1 ∧
      (LoginAuth sampleEnv wrongLoginInput ⟨3, ⟨"", ""⟩⟩).state.Session.Captcha =
        wrongLoginInput.Rand ∧
      (LoginAuth sampleEnv wrongLoginInput ⟨3, ⟨"", ""⟩⟩).ret.Code ≠ 0 ∧
      (LoginAuth sampleEnv wrongLoginInput ⟨3, ⟨"", ""⟩⟩).ret.Code =
        (if sampleEnv.NeedCaptcha (3 + 1) then 1 else -1)) ∧
    (LoginAuthSeq sampleEnv
      ([wrongLoginInput, wrongLoginInput, wrongLoginInput, wrongLoginInput].take 4)
      ⟨0, ⟨"", ""⟩⟩).WrongAuthCount = (4 : Nat) :=
  ⟨(loginAuth_wrong_secret sampleEnv).1 wrongLoginInput ⟨3, ⟨"", ""⟩⟩
      [("authCode", .str "guess")] "guess" (by decide) (by decide) (by decide)
      (Or.inl (by decide)) (by decide),
    (loginAuth_wrong_secret sampleEnv).2
      [wrongLoginInput, wrongLoginInput, wrongLoginInput, wrongLoginInput] ⟨"", ""⟩
      (by
        intro inp hi
        have hinp : inp = wrongLoginInput := by simpa using hi
        rw [hinp]
        exact ⟨[("authCode", .str "guess")], "guess", rfl, rfl, by decide⟩)
      (by
        intro k hk
        have hk4 : k < 4 := by simpa using hk
        have hk3 : ¬ (3 : Int) < k := by omega
        simp [sampleEnv, hk3])
      (by decide) 4 (by decide)⟩

/-! ## What `LoginAuth` may change -/

/-- The comparison of the secret leaves the certified secret as it was, or sets it to a
submitted secret that equals the configured one. -/
theorem loginCheckCode_certified (env : Env) (inp : LoginInput) (st : LoginState)
    (arg : List (String × JsonVal)) :
    (loginCheckCode env inp st arg).state.Session.AccessAuthCode = st.Session.AccessAuthCode ∨
    ((loginCheckCode env inp st arg).state.Session.AccessAuthCode = env.AccessAuthCode ∧
      arg.lookup "authCode" = some (.str env.AccessAuthCode)) := by
  unfold loginCheckCode
  cases hcode : arg.lookup "authCode" with
  | none => simp
  | some v =>
    cases v with
    | other => simp
    | str authCode =>
      by_cases heq : env.AccessAuthCode = authCode
      · simp [heq]
      · simp [heq]

/-- A call of `LoginAuth` either leaves the state as it was, or goes on to the comparison
of the secret after the captcha gate has been passed. -/
theorem loginAuth_cases (env : Env) (inp : LoginInput) (st : LoginState) :
    (LoginAuth env inp st).state = st ∨
    ∃ arg, inp.JsonArg = some arg ∧
      LoginAuth env inp st = loginCheckCode env inp st arg ∧
      (env.NeedCaptcha st.WrongAuthCount = true →
        ∃ inputCaptcha, arg.lookup "captcha" = some (.str inputCaptcha) ∧
          inputCaptcha ≠ "" ∧ env.ToLower st.Session.Captcha = env.ToLower inputCaptcha) := by
  cases harg : inp.JsonArg with
  | none => simp [LoginAuth, harg]
  | some arg =>
    by_cases hneed : env.NeedCaptcha st.WrongAuthCount = true
    · cases hcap : arg.lookup "captcha" with
      | none => simp [LoginAuth, harg, hneed, hcap]
      | some v =>
        cases v with
        | other => simp [LoginAuth, harg, hneed, hcap]
        | str inputCaptcha =>
          by_cases hempty : inputCaptcha = ""
          · simp [LoginAuth, harg, hneed, hcap, hempty]
          · by_cases hlow : env.ToLower st.Session.Captcha = env.ToLower inputCaptcha
            · right
              exact ⟨arg, rfl, by simp [LoginAuth, harg, hneed, hcap, hempty, hlow],
                fun _ => ⟨inputCaptcha, hcap, hempty, hlow⟩⟩
            · simp [LoginAuth, harg, hneed, hcap, hempty, hlow]
    · right
      exact ⟨arg, rfl, by simp [LoginAuth, harg, hneed], fun h => absurd h hneed⟩

/-- C12: after any call of `LoginAuth` the certified secret of the session is unchanged
or equal to the configured secret; it is changed only when the submitted secret equals
the configured secret and, if a captcha is required, a non-empty captcha matching the
stored captcha text ignoring case was submitted; and while a captcha is required, an
attempt whose captcha is missing, empty or mismatching leaves the certified secret and
the failed-attempt counter unchanged, whatever the submitted secret. -/
theorem loginAuth_certifies_only_passed_login (env : Env) (inp : LoginInput)
    (st : LoginState) :
    ((LoginAuth env inp st).state.Session.AccessAuthCode = st.Session.AccessAuthCode ∨
      (LoginAuth env inp st).state.Session.AccessAuthCode = env.AccessAuthCode) ∧
    ((LoginAuth env inp st).state.Session.AccessAuthCode ≠ st.Session.AccessAuthCode →
      ∃ arg, inp.JsonArg = some arg ∧
        arg.lookup "authCode" = some (.str env.AccessAuthCode) ∧
        (env.NeedCaptcha st.WrongAuthCount = true →
          ∃ inputCaptcha, arg.lookup "captcha" = some (.str inputCaptcha) ∧
            inputCaptcha ≠ "" ∧
            env.ToLower st.Session.Captcha = env.ToLower inputCaptcha)) ∧
    (env.NeedCaptcha st.WrongAuthCount = true →
      ∀ arg, inp.JsonArg = some arg →
        (arg.lookup "captcha" = none ∨ arg.lookup "captcha" = some (.str "") ∨
          ∃ inputCaptcha, arg.lookup "captcha" = some (.str inputCaptcha) ∧
            env.ToLower st.Session.Captcha ≠ env.ToLower inputCaptcha) →
        (LoginAuth env inp st).state.Session.AccessAuthCode = st.Session.AccessAuthCode ∧
        (LoginAuth env inp st).state.WrongAuthCount = st.WrongAuthCount ∧
        (LoginAuth env inp st).ret.Code = 1) := by
  refine ⟨?_, ?_, ?_⟩
  · rcases loginAuth_cases env inp st with h | ⟨arg, _, hlogin, _⟩
    · left; rw [h]
    · rw [hlogin]
      rcases loginCheckCode_certified env inp st arg with h | ⟨h, _⟩
      · exact Or.inl h
      · exact Or.inr h
  · intro hchanged
    rcases loginAuth_cases env inp st with h | ⟨arg, harg, hlogin, hgate⟩
    · exact absurd (by rw [h]) hchanged
    · rw [hlogin] at hchanged
      rcases loginCheckCode_certified env inp st arg with h | ⟨_, hcode⟩
      · exact absurd h hchanged
      · exact ⟨arg, harg, hcode, hgate⟩
  · intro hneed arg harg hcap
    rcases hcap with hc | hc | ⟨inputCaptcha, hc, hlow⟩
    · simp [LoginAuth, harg, hneed, hc]
    · simp [LoginAuth, harg, hneed, hc]
    · by_cases hempty : inputCaptcha = ""
      · simp [LoginAuth, harg, hneed, hc, hempty]
      · simp [LoginAuth, harg, hneed, hc, hempty, hlow]

/-! ## Captcha mismatch -/

/-- C13 at a concrete call: a captcha is required, the session stores the captcha text
`ABCD`, the login submits the captcha `wxyz`; `LoginAuth` answers code 1 and the session
still stores `ABCD`, not the string the generator would have returned. -/
theorem loginAuth_mismatch_keeps_captcha :
    sampleEnv.NeedCaptcha captchaState.WrongAuthCount = true ∧
    loginMismatchInput.JsonArg =
      some [("authCode", .str "s3cr3t"), ("captcha", .str "wxyz")] ∧
    sampleEnv.ToLower "wxyz" ≠ sampleEnv.ToLower captchaState.Session.Captcha ∧
    (LoginAuth sampleEnv loginMismatchInput captchaState).ret.Code = 1 ∧
    captchaState.Session.Captcha = "ABCD" ∧
    (LoginAuth sampleEnv loginMismatchInput captchaState).state.Session.Captcha = "ABCD" ∧
    (LoginAuth sampleEnv loginMismatchInput captchaState).state.Session.Captcha ≠
      loginMismatchInput.Rand := by
  decide


/-! ## Classification of requests by `ControlConcurrency` -/

theorem splitSlash_no_slash : ∀ (l : List Char) (seg : List Char),
    seg ∈ splitSlash l → '/' ∉ seg := by
  intro l
  induction l with
  | nil =>
    intro seg h
    simp [splitSlash] at h
    simp [h]
  | cons ch cs ih =>
    intro seg h
    unfold splitSlash at h
    by_cases hch : ch = '/'
    · simp only [hch, if_true, List.mem_cons] at h
      rcases h with h | h
      · simp [h]
      · exact ih seg h
    · simp only [hch, if_false] at h
      cases hs : splitSlash cs with
      | nil =>
        rw [hs] at h
        simp only [List.mem_singleton] at h
        rw [h]
        simp only [List.mem_singleton]
        exact fun heq => hch heq.symm
      | cons s rest =>
        rw [hs] at h
        simp only [List.mem_cons] at h
        rcases h with h | h
        · rw [h]
          have hs2 : '/' ∉ s := ih s (by rw [hs]; exact List.mem_cons_self _ _)
          simp only [List.mem_cons, not_or]
          exact ⟨fun heq => hch heq.symm, hs2⟩
        · exact ih seg (by rw [hs]; exact List.mem_cons_of_mem _ h)

theorem getLastD_mem {α : Type} : ∀ (l : List α) (d : α), l.getLastD d = d ∨ l.getLastD d ∈ l := by
  intro l
  induction l with
  | nil => intro d; left; rfl
  | cons a as ih =>
    intro d
    right
    rw [List.getLastD_cons]
    rcases ih a with h | h
    · rw [h]; exact List.mem_cons_self _ _
    · exact List.mem_cons_of_mem _ h

theorem lastPart_no_slash (reqPath : String) : '/' ∉ (lastPart reqPath).data := by
  unfold lastPart
  rcases getLastD_mem (splitSlash reqPath.data) [] with h | h
  · rw [h]; simp
  · exact splitSlash_no_slash _ _ h

theorem hasPrefix_slash (s pre : String) (hpre : pre.data.head? = some '/')
    (h : HasPrefix s pre = true) : '/' ∈ s.data := by
  unfold HasPrefix at h
  cases hp : pre.data with
  | nil => rw [hp] at hpre; simp at hpre
  | cons a as =>
    rw [hp] at hpre h
    simp only [List.head?_cons, Option.some.injEq] at hpre
    cases hs : s.data with
    | nil => rw [hs] at h; simp [List.isPrefixOf] at h
    | cons b bs =>
      rw [hs] at h
      simp only [List.isPrefixOf, Bool.and_eq_true, beq_iff_eq] at h
      rw [← h.1, hpre]
      exact List.mem_cons_self _ _

/-- The last test of `ControlConcurrency` never succeeds: the final piece of the path
holds no slash. -/
theorem lastPart_not_under (reqPath : String) :
    HasPrefix (lastPart reqPath) "/api/query/" = false ∧
    HasPrefix (lastPart reqPath) "/api/search/" = false := by
  constructor
  · cases h : HasPrefix (lastPart reqPath) "/api/query/" with
    | false => rfl
    | true => exact absurd (hasPrefix_slash _ _ (by decide) h) (lastPart_no_slash reqPath)
  · cases h : HasPrefix (lastPart reqPath) "/api/search/" with
    | false => rfl
    | true => exact absurd (hasPrefix_slash _ _ (by decide) h) (lastPart_no_slash reqPath)

/-- The requests `ControlConcurrency` lets run without a lock: WebSocket upgrades, paths
under `/stage/`, `/assets/` or `/appearance/`, and paths whose final piece starts with
`get`, `list`, `search`, `render` or `ls`. -/
theorem bypassesLock_iff (c : Context) :
    bypassesLock c = true ↔
      c.IsWebSocketUpgrade = true ∨
      (HasPrefix c.URLPath "/stage/" = true ∨ HasPrefix c.URLPath "/assets/" = true ∨
        HasPrefix c.URLPath "/appearance/" = true) ∨
      (HasPrefix (lastPart c.URLPath) "get" = true ∨
        HasPrefix (lastPart c.URLPath) "list" = true ∨
        HasPrefix (lastPart c.URLPath) "search" = true ∨
        HasPrefix (lastPart c.URLPath) "render" = true ∨
        HasPrefix (lastPart c.URLPath) "ls" = true) := by
  have hdead := lastPart_not_under c.URLPath
  unfold bypassesLock
  by_cases h1 : c.IsWebSocketUpgrade = true
  · simp [h1]
  · by_cases h2 : (HasPrefix c.URLPath "/stage/" || HasPrefix c.URLPath "/assets/" ||
        HasPrefix c.URLPath "/appearance/") = true
    · have h2b : HasPrefix c.URLPath "/stage/" = true ∨ HasPrefix c.URLPath "/assets/" = true ∨
          HasPrefix c.URLPath "/appearance/" = true := by
        simpa [or_assoc] using h2
      simp only [h1, h2, if_true]
      simp [h2b]
    · have h2b : ¬ (HasPrefix c.URLPath "/stage/" = true ∨
          HasPrefix c.URLPath "/assets/" = true ∨
          HasPrefix c.URLPath "/appearance/" = true) := by
        simpa [or_assoc] using h2
      simp only [h1, h2, hdead.1, hdead.2]
      simp [h2b, or_assoc]

/-- C14 at a concrete request: the path `/api/query/sql` lies under `/api/query/`, the
request is no WebSocket upgrade, and `ControlConcurrency` does not let it bypass the
locks: it creates the lock of the path and holds it around the handler. -/
theorem controlConcurrency_query_serialized :
    HasPrefix queryReq.URLPath "/api/query/" = true ∧
    queryReq.IsWebSocketUpgrade = false ∧
    lastPart queryReq.URLPath = "sql" ∧
    bypassesLock queryReq = false ∧
    (ControlConcurrency queryReq ⟨[], 0⟩).held = some 0 ∧
    (ControlConcurrency queryReq ⟨[], 0⟩).registry = ⟨[("/api/query/sql", 0)], 1⟩ := by
  decide

/-! ## The lock registry -/

theorem lookup_none_iff (l : List (String × Nat)) (q : String) :
    l.lookup q = none ↔ q ∉ l.map Prod.fst := by
  induction l with
  | nil => simp
  | cons e rest ih =>
    obtain ⟨k, v⟩ := e
    by_cases hk : q = k
    · simp [List.lookup, hk]
    · have hk2 : (q == k) = false := by simpa using hk
      simp [List.lookup, hk2, hk, ih]

theorem controlConcurrency_bypass (c : Context) (reg : Registry)
    (h : bypassesLock c = true) :
    (ControlConcurrency c reg).registry = reg ∧ (ControlConcurrency c reg).held = none := by
  simp [ControlConcurrency, h]

theorem controlConcurrency_found (c : Context) (reg : Registry) (m : Nat)
    (h : bypassesLock c = false) (hm : reg.requesting.lookup c.URLPath = some m) :
    (ControlConcurrency c reg).registry = reg ∧ (ControlConcurrency c reg).held = some m := by
  simp [ControlConcurrency, h, hm]

theorem controlConcurrency_created (c : Context) (reg : Registry)
    (h : bypassesLock c = false) (hm : reg.requesting.lookup c.URLPath = none) :
    (ControlConcurrency c reg).registry =
      ⟨(c.URLPath, reg.allocated) :: reg.requesting, reg.allocated + 1⟩ ∧
    (ControlConcurrency c reg).held = some reg.allocated := by
  simp [ControlConcurrency, h, hm]

/-- One call keeps every entry of the registry. -/
theorem controlConcurrency_keeps (c : Context) (reg : Registry) (q : String) (m : Nat)
    (hq : reg.requesting.lookup q = some m) :
    (ControlConcurrency c reg).registry.requesting.lookup q = some m := by
  by_cases hb : bypassesLock c = true
  · rw [(controlConcurrency_bypass c reg hb).1]; exact hq
  · have hb2 : bypassesLock c = false := by simpa using hb
    cases hm : reg.requesting.lookup c.URLPath with
    | some m2 => rw [(controlConcurrency_found c reg m2 hb2 hm).1]; exact hq
    | none =>
      rw [(controlConcurrency_created c reg hb2 hm).1]
      have hne : q ≠ c.URLPath := by
        intro heq
        rw [heq, hm] at hq
        exact Option.noConfusion hq
      have hne2 : (q == c.URLPath) = false := by simpa using hne
      simp [List.lookup, hne2, hq]

/-- After a call for a serialized path the registry maps the path to the lock the call
holds. -/
theorem controlConcurrency_held (c : Context) (reg : Registry)
    (h : bypassesLock c = false) :
    ∃ m, (ControlConcurrency c reg).held = some m ∧
      (ControlConcurrency c reg).registry.requesting.lookup c.URLPath = some m := by
  cases hm : reg.requesting.lookup c.URLPath with
  | some m =>
    refine ⟨m, (controlConcurrency_found c reg m h hm).2, ?_⟩
    rw [(controlConcurrency_found c reg m h hm).1]; exact hm
  | none =>
    refine ⟨reg.allocated, (controlConcurrency_created c reg h hm).2, ?_⟩
    rw [(controlConcurrency_created c reg h hm).1]
    simp [List.lookup]

theorem registryAfter_keeps : ∀ (cs : List Context) (reg : Registry) (q : String) (m : Nat),
    reg.requesting.lookup q = some m → (registryAfter cs reg).requesting.lookup q = some m := by
  intro cs
  induction cs with
  | nil => intro reg q m h; exact h
  | cons c rest ih =>
    intro reg q m h
    exact ih _ q m (controlConcurrency_keeps c reg q m h)

theorem registryAfter_append : ∀ (cs1 cs2 : List Context) (reg : Registry),
    registryAfter (cs1 ++ cs2) reg = registryAfter cs2 (registryAfter cs1 reg) := by
  intro cs1
  induction cs1 with
  | nil => intro cs2 reg; rfl
  | cons c rest ih => intro cs2 reg; exact ih cs2 _

theorem controlConcurrency_wellFormed (c : Context) (reg : Registry)
    (hwf : reg.WellFormed) : (ControlConcurrency c reg).registry.WellFormed := by
  by_cases hb : bypassesLock c = true
  · rw [(controlConcurrency_bypass c reg hb).1]; exact hwf
  · have hb2 : bypassesLock c = false := by simpa using hb
    cases hm : reg.requesting.lookup c.URLPath with
    | some m2 => rw [(controlConcurrency_found c reg m2 hb2 hm).1]; exact hwf
    | none =>
      rw [(controlConcurrency_created c reg hb2 hm).1]
      obtain ⟨h1, h2, h3⟩ := hwf
      have hnew : c.URLPath ∉ reg.requesting.map Prod.fst := (lookup_none_iff _ _).1 hm
      refine ⟨?_, ?_, ?_⟩
      · simp only [List.map_cons, List.nodup_cons]
        exact ⟨hnew, h1⟩
      · simp only [List.map_cons, List.nodup_cons]
        exact ⟨fun hmem => Nat.lt_irrefl _ (h3 _ hmem), h2⟩
      · intro m hmem
        simp only [List.map_cons, List.mem_cons] at hmem
        rcases hmem with h | h
        · rw [h]; exact Nat.lt_succ_self _
        · exact Nat.lt_succ_of_lt (h3 m h)

theorem controlConcurrency_keys (c : Context) (reg : Registry) (q : String) :
    q ∈ (ControlConcurrency c reg).registry.requesting.map Prod.fst ↔
      q ∈ reg.requesting.map Prod.fst ∨ (bypassesLock c = false ∧ c.URLPath = q) := by
  by_cases hb : bypassesLock c = true
  · rw [(controlConcurrency_bypass c reg hb).1]; simp [hb]
  · have hb2 : bypassesLock c = false := by simpa using hb
    cases hm : reg.requesting.lookup c.URLPath with
    | some m2 =>
      rw [(controlConcurrency_found c reg m2 hb2 hm).1]
      constructor
      · exact fun h => Or.inl h
      · rintro (h | ⟨_, h⟩)
        · exact h
        · by_contra hq
          have := (lookup_none_iff reg.requesting q).2 hq
          rw [← h, hm] at this
          exact Option.noConfusion this
    | none =>
      rw [(controlConcurrency_created c reg hb2 hm).1]
      simp only [List.map_cons, List.mem_cons, hb2, true_and]
      constructor
      · rintro (h | h)
        · exact Or.inr h.symm
        · exact Or.inl h
      · rintro (h | h)
        · exact Or.inr h
        · exact Or.inl h.symm

theorem registryAfter_wellFormed : ∀ (cs : List Context) (reg : Registry),
    reg.WellFormed → (registryAfter cs reg).WellFormed := by
  intro cs
  induction cs with
  | nil => intro reg h; exact h
  | cons c rest ih => intro reg h; exact ih _ (controlConcurrency_wellFormed c reg h)

theorem registryAfter_keys : ∀ (cs : List Context) (reg : Registry) (q : String),
    q ∈ (registryAfter cs reg).requesting.map Prod.fst ↔
      q ∈ reg.requesting.map Prod.fst ∨ ∃ c ∈ cs, bypassesLock c = false ∧ c.URLPath = q := by
  intro cs
  induction cs with
  | nil => intro reg q; simp [registryAfter]
  | cons c rest ih =>
    intro reg q
    simp only [registryAfter]
    rw [ih, controlConcurrency_keys]
    simp only [List.mem_cons, exists_eq_or_imp]
    tauto

/-- C15: one call of `ControlConcurrency` keeps every entry of the registry mapped to the
same lock, leaves the registry unchanged for a request that bypasses the locks and for a
path that already has a lock, and adds one entry, with a newly allocated lock, for a
serialized path that has none; hence after any sequence of requests, starting from the
empty registry, no path and no lock occurs twice, the paths of the registry are exactly
the paths of the serialized requests made so far, and a later request for a path holds
the lock the earlier request for that path held. -/
theorem controlConcurrency_registry_invariant :
    (∀ (c : Context) (reg : Registry) (q : String) (m : Nat),
      reg.requesting.lookup q = some m →
      (ControlConcurrency c reg).registry.requesting.lookup q = some m) ∧
    (∀ (c : Context) (reg : Registry), bypassesLock c = true →
      (ControlConcurrency c reg).registry = reg ∧ (ControlConcurrency c reg).held = none) ∧
    (∀ (c : Context) (reg : Registry) (m : Nat), bypassesLock c = false →
      reg.requesting.lookup c.URLPath = some m →
      (ControlConcurrency c reg).registry = reg ∧ (ControlConcurrency c reg).held = some m) ∧
    (∀ (c : Context) (reg : Registry), bypassesLock c = false →
      reg.requesting.lookup c.URLPath = none →
      (ControlConcurrency c reg).registry.requesting =
        (c.URLPath, reg.allocated) :: reg.requesting ∧
      (ControlConcurrency c reg).held = some reg.allocated) ∧
    (∀ cs : List Context,
      ((registryAfter cs ⟨[], 0⟩).requesting.map Prod.fst).Nodup ∧
      ((registryAfter cs ⟨[], 0⟩).requesting.map Prod.snd).Nodup ∧
      ∀ q : String, q ∈ (registryAfter cs ⟨[], 0⟩).requesting.map Prod.fst ↔
        ∃ c ∈ cs, bypassesLock c = false ∧ c.URLPath = q) ∧
    (∀ (reg : Registry) (cs1 cs2 : List Context) (c c2 : Context),
      bypassesLock c = false → bypassesLock c2 = false → c2.URLPath = c.URLPath →
      (ControlConcurrency c2 (registryAfter (cs1 ++ c :: cs2) reg)).held =
        (ControlConcurrency c (registryAfter cs1 reg)).held ∧
      (ControlConcurrency c2 (registryAfter (cs1 ++ c :: cs2) reg)).registry =
        registryAfter (cs1 ++ c :: cs2) reg) := by
  refine ⟨controlConcurrency_keeps, controlConcurrency_bypass, controlConcurrency_found,
    ?_, ?_, ?_⟩
  · intro c reg hb hm
    have h := controlConcurrency_created c reg hb hm
    exact ⟨by rw [h.1], h.2⟩
  · intro cs
    have hwf : (registryAfter cs ⟨[], 0⟩).WellFormed :=
      registryAfter_wellFormed cs ⟨[], 0⟩ ⟨List.nodup_nil, List.nodup_nil, by simp⟩
    refine ⟨hwf.1, hwf.2.1, ?_⟩
    intro q
    rw [registryAfter_keys]
    simp
  · intro reg cs1 cs2 c c2 hb hb2 hpath
    obtain ⟨m, hheld, hlook⟩ := controlConcurrency_held c (registryAfter cs1 reg) hb
    have hafter : (registryAfter (cs1 ++ c :: cs2) reg).requesting.lookup c2.URLPath =
        some m := by
      rw [registryAfter_append]
      simp only [registryAfter]
      rw [hpath]
      exact registryAfter_keeps cs2 _ _ m hlook
    have hfound := controlConcurrency_found c2 _ m hb2 hafter
    exact ⟨by rw [hfound.2, hheld], hfound.1⟩


/-! ## Timing warnings -/

/-- C17, as stated, fails: the path of `searchReq` is in the timing table, the budget is
overridden to 250 ms, the handler ends 300 ms after it started, and it ends in a panic;
`Timing` runs the handler once and pushes no warning. -/
theorem timing_warnings_counterexample :
    timingAPIs.lookup searchReq.URLPath = some 200 ∧
    timingBudget panicTiming = 250 ∧
    panicTiming.After - panicTiming.Before = 300 ∧
    timingBudget panicTiming < timingElapsed panicTiming ∧
    panicTiming.Handler = .panicked ∧
    (Timing sampleEnv panicTiming searchReq).handlerRuns = 1 ∧
    (Timing sampleEnv panicTiming searchReq).pushed = [] ∧
    (Timing sampleEnv panicTiming searchReq).propagates = true := by
  decide

/-- C17, amended: for a request whose path is in the timing table and whose handler
returns, `Timing` pushes exactly one warning when the measured elapsed milliseconds
strictly exceed the budget and none otherwise, the budget being the integer value of
`SIYUAN_PERFORMANCE_TIMING` when the variable is set and parses as an integer, and 15000
otherwise; when the handler panics, `Timing` pushes no warning and the panic goes on
into its caller; for a path absent from the table it pushes no warning; in every case
the handler is run exactly once. -/
theorem timing_warnings (env : Env) (t : TimingInput) (c : Context) :
    (∀ tip, timingAPIs.lookup c.URLPath = some tip → t.Handler = .returned →
      (∀ n, t.Getenv ≠ "" → t.Atoi t.Getenv = some n →
        (n < timingElapsed t → (Timing env t c).pushed = [(env.Language tip, 7000)]) ∧
        (¬ n < timingElapsed t → (Timing env t c).pushed = [])) ∧
      ((t.Getenv = "" ∨ t.Atoi t.Getenv = none) →
        (15000 < timingElapsed t → (Timing env t c).pushed = [(env.Language tip, 7000)]) ∧
        (¬ 15000 < timingElapsed t → (Timing env t c).pushed = []))) ∧
    (t.Handler = .panicked →
      (Timing env t c).pushed = [] ∧ (Timing env t c).propagates = true) ∧
    (t.Handler = .returned → (Timing env t c).propagates = false) ∧
    (timingAPIs.lookup c.URLPath = none → (Timing env t c).pushed = []) ∧
    (Timing env t c).pushed.length ≤ 1 ∧
    (Timing env t c).handlerRuns = 1 ∧
    (-9223372036854775808 ≤ t.After - t.Before → t.After - t.Before < 9223372036854775808 →
      timingElapsed t = t.After - t.Before) ∧
    (timingAPIs.lookup c.URLPath ≠ none ↔ c.URLPath = "/api/search/fullTextSearchBlock") := by
  refine ⟨?_, ?_, ?_, ?_, ?_, ?_, ?_, ?_⟩
  · intro tip htip hret
    constructor
    · intro n hset hparse
      have hb : timingBudget t = n := by simp [timingBudget, hset, hparse]
      constructor
      · intro h; simp [Timing, htip, hret, hb, h]
      · intro h; simp [Timing, htip, hret, hb, h]
    · intro hdefault
      have hb : timingBudget t = 15000 := by
        rcases hdefault with h | h
        · simp [timingBudget, h]
        · by_cases hset : t.Getenv = ""
          · simp [timingBudget, hset]
          · simp [timingBudget, hset, h]
      constructor
      · intro h; simp [Timing, htip, hret, hb, h]
      · intro h; simp [Timing, htip, hret, hb, h]
  · intro hpanic
    cases hl : timingAPIs.lookup c.URLPath <;> simp [Timing, hl, hpanic]
  · intro hret
    cases hl : timingAPIs.lookup c.URLPath with
    | none => simp [Timing, hl, hret]
    | some tip =>
      by_cases h : timingBudget t < timingElapsed t <;> simp [Timing, hl, hret, h]
  · intro h; simp [Timing, h]
  · cases hl : timingAPIs.lookup c.URLPath with
    | none => simp [Timing, hl]
    | some tip =>
      cases hh : t.Handler with
      | panicked => simp [Timing, hl, hh]
      | returned =>
        by_cases h : timingBudget t < timingElapsed t <;> simp [Timing, hl, hh, h]
  · cases hl : timingAPIs.lookup c.URLPath with
    | none => simp [Timing, hl]
    | some tip =>
      cases hh : t.Handler with
      | panicked => simp [Timing, hl, hh]
      | returned =>
        by_cases h : timingBudget t < timingElapsed t <;> simp [Timing, hl, hh, h]
  · intro h1 h2
    unfold timingElapsed wrapInt64
    omega
  · by_cases hp : c.URLPath = "/api/search/fullTextSearchBlock"
    · simp [timingAPIs, List.lookup, hp]
    · have hp2 : (c.URLPath == "/api/search/fullTextSearchBlock") = false := by simpa using hp
      simp [timingAPIs, List.lookup, hp, hp2]

/-! ## Faults of the handler -/

/-- C18 at a panicking handler: the deferred function of `Recover` sets the status 500,
and the panic is not stopped there; it goes on into the caller of `Recover`. -/
theorem recover_panic_propagates :
    loggingRecover true false = false ∧
    (Recover .panicked).Status = some 500 ∧
    (Recover .panicked).propagates = true ∧
    (Recover .returned).Status = some 500 := by
  decide

/-! ## The open-mode branch once more -/

/-- C19: with no secret configured and the bypass flag disabled, `CheckAuth` passes the
request through exactly when `isLocalhost` holds and the client address is empty or a
local host name; each of the three further tests, on the headers `Host`, `Origin` and
`X-Forwarded-Host`, can only succeed when `isLocalhost` is already false. -/
theorem checkAuth_open_mode_iff (env : Env) (c : Context)
    (hsecret : env.AccessAuthCode = "")
    (hbypass : env.SiyuanAccessAuthCodeBypass = false) :
    (CheckAuth env c = .next ↔
      isLocalhost env c = true ∧
        (c.ClientIP = "" ∨ env.IsLocalHostname c.ClientIP = true)) ∧
    (CheckAuth env c ≠ .next → CheckAuth env c = .abortJSON 401 ⟨-1, openModeMsg⟩) ∧
    ((GetHeader c "Host" ≠ "" ∧ env.IsLocalHost (GetHeader c "Host") = false) →
      isLocalhost env c = false) ∧
    ((GetHeader c "Origin" ≠ "" ∧ env.IsLocalOrigin (GetHeader c "Origin") = false ∧
        HasPrefix (GetHeader c "Origin") "chrome-extension://" = false) →
      isLocalhost env c = false) ∧
    ((GetHeader c "X-Forwarded-Host" ≠ "" ∧
        env.IsLocalHost (GetHeader c "X-Forwarded-Host") = false) →
      isLocalhost env c = false) := by
  have hhost : (GetHeader c "Host" ≠ "" ∧ env.IsLocalHost (GetHeader c "Host") = false) →
      isLocalhost env c = false := by
    rintro ⟨h1, h2⟩
    unfold isLocalhost
    by_cases hr : env.IsLocalHost c.RemoteAddr = true <;> simp [hr, h1, h2]
  have horigin : (GetHeader c "Origin" ≠ "" ∧
      env.IsLocalOrigin (GetHeader c "Origin") = false ∧
      HasPrefix (GetHeader c "Origin") "chrome-extension://" = false) →
      isLocalhost env c = false := by
    rintro ⟨h1, h2, h3⟩
    unfold isLocalhost
    by_cases hr : env.IsLocalHost c.RemoteAddr = true
    · by_cases hh : GetHeader c "Host" ≠ "" ∧ (!env.IsLocalHost (GetHeader c "Host")) = true
      · simp [hr, hh]
      · simp only [hr, hh]
        simp [h1, h2, h3]
    · simp [hr]
  have hfwd : (GetHeader c "X-Forwarded-Host" ≠ "" ∧
      env.IsLocalHost (GetHeader c "X-Forwarded-Host") = false) →
      isLocalhost env c = false := by
    rintro ⟨h1, h2⟩
    unfold isLocalhost
    by_cases hr : env.IsLocalHost c.RemoteAddr = true
    · by_cases hh : GetHeader c "Host" ≠ "" ∧ (!env.IsLocalHost (GetHeader c "Host")) = true
      · simp [hr, hh]
      · by_cases ho : GetHeader c "Origin" ≠ "" ∧
            (!env.IsLocalOrigin (GetHeader c "Origin") &&
              !HasPrefix (GetHeader c "Origin") "chrome-extension://") = true
        · simp [hr, hh, ho]
        · simp only [hr, hh, ho]
          simp [h1, h2]
    · simp [hr]
  have hmain : CheckAuth env c =
      (if isLocalhost env c = true ∧
          (c.ClientIP = "" ∨ env.IsLocalHostname c.ClientIP = true)
        then Outcome.next else .abortJSON 401 ⟨-1, openModeMsg⟩) := by
    by_cases hloc : isLocalhost env c = true
    · have h1 : GetHeader c "Host" = "" ∨ env.IsLocalHost (GetHeader c "Host") = true := by
        by_contra hcon
        push_neg at hcon
        have := hhost ⟨hcon.1, by simpa using hcon.2⟩
        rw [hloc] at this
        exact Bool.noConfusion this
      have h2 : GetHeader c "Origin" = "" ∨ env.IsLocalOrigin (GetHeader c "Origin") = true ∨
          HasPrefix (GetHeader c "Origin") "chrome-extension://" = true := by
        by_contra hcon
        push_neg at hcon
        have := horigin ⟨hcon.1, by simpa using hcon.2.1, by simpa using hcon.2.2⟩
        rw [hloc] at this
        exact Bool.noConfusion this
      have h3 : GetHeader c "X-Forwarded-Host" = "" ∨
          env.IsLocalHost (GetHeader c "X-Forwarded-Host") = true := by
        by_contra hcon
        push_neg at hcon
        have := hfwd ⟨hcon.1, by simpa using hcon.2⟩
        rw [hloc] at this
        exact Bool.noConfusion this
      by_cases hc : c.ClientIP = "" ∨ env.IsLocalHostname c.ClientIP = true
      · rcases h1 with h1 | h1 <;> rcases h2 with h2 | h2 | h2 <;> rcases h3 with h3 | h3 <;>
          rcases hc with hc | hc <;>
          simp [CheckAuth, hsecret, hbypass, hloc, h1, h2, h3, hc]
      · have hc1 : ¬ c.ClientIP = "" := fun h => hc (Or.inl h)
        have hc2 : env.IsLocalHostname c.ClientIP = false := by
          cases h : env.IsLocalHostname c.ClientIP
          · rfl
          · exact absurd (Or.inr h) hc
        simp [CheckAuth, hsecret, hbypass, hloc, hc1, hc2, StatusUnauthorized]
    · have hloc2 : isLocalhost env c = false := by simpa using hloc
      simp [CheckAuth, hsecret, hbypass, hloc2, StatusUnauthorized]
  refine ⟨?_, ?_, hhost, horigin, hfwd⟩
  · rw [hmain]
    by_cases h : isLocalhost env c = true ∧
        (c.ClientIP = "" ∨ env.IsLocalHostname c.ClientIP = true)
    · simp only [h, and_self, if_true]
    · simp only [h, if_false, iff_false]
      exact fun hh => Outcome.noConfusion hh
  · rw [hmain]
    by_cases h : isLocalhost env c = true ∧
        (c.ClientIP = "" ∨ env.IsLocalHostname c.ClientIP = true)
    · simp [h]
    · simp [h]

theorem checkAuth_open_mode_iff_witness :
    (CheckAuth openEnv proxiedReq = .next ↔
      isLocalhost openEnv proxiedReq = true ∧
        (proxiedReq.ClientIP = "" ∨ openEnv.IsLocalHostname proxiedReq.ClientIP = true)) ∧
    (CheckAuth openEnv proxiedReq ≠ .next →
      CheckAuth openEnv proxiedReq = .abortJSON 401 ⟨-1, openModeMsg⟩) ∧
    ((GetHeader proxiedReq "Host" ≠ "" ∧
        openEnv.IsLocalHost (GetHeader proxiedReq "Host") = false) →
      isLocalhost openEnv proxiedReq = false) ∧
    ((GetHeader proxiedReq "Origin" ≠ "" ∧
        openEnv.IsLocalOrigin (GetHeader proxiedReq "Origin") = false ∧
        HasPrefix (GetHeader proxiedReq "Origin") "chrome-extension://" = false) →
      isLocalhost openEnv proxiedReq = false) ∧
    ((GetHeader proxiedReq "X-Forwarded-Host" ≠ "" ∧
        openEnv.IsLocalHost (GetHeader proxiedReq "X-Forwarded-Host") = false) →
      isLocalhost openEnv proxiedReq = false) :=
  checkAuth_open_mode_iff openEnv proxiedReq (by decide) (by decide)

/-! ## `CheckBasicAuth` -/

theorem checkToken_eq (env : Env) (c : Context) :
    checkToken env c = (env.ApiToken == (extractToken c).1, (extractToken c).2) := by
  simp [checkToken]

/-- C20: with no secret configured, `CheckBasicAuth` passes the request through exactly
when `isLocalhost` holds, whatever the bypass flag, and otherwise rejects it with status
401; with a secret configured, it passes the request through exactly when the session is
certified, or a token was attempted and equals the configured API token, or no token was
attempted and Basic credentials are present whose password is the configured secret; a
wrong attempted token is rejected with status 401 and the JSON body with code -1; every
other request that does not pass gets status 401 with the header
`WWW-Authenticate: Basic ...`; no request is redirected. -/
theorem checkBasicAuth_decision (env : Env) (c : Context) :
    (env.AccessAuthCode = "" →
      (CheckBasicAuth env c = .next ↔ isLocalhost env c = true) ∧
      (isLocalhost env c = false →
        CheckBasicAuth env c = .abortJSON 401 ⟨-1, "Auth failed"⟩)) ∧
    (∀ b : Bool,
      CheckBasicAuth { env with SiyuanAccessAuthCodeBypass := b } c = CheckBasicAuth env c) ∧
    (env.AccessAuthCode ≠ "" →
      (CheckBasicAuth env c = .next ↔
        c.Session.AccessAuthCode = env.AccessAuthCode ∨
        ((extractToken c).2 = true ∧ (extractToken c).1 = env.ApiToken) ∨
        ((extractToken c).2 = false ∧
          ∃ username password, c.BasicAuth = some (username, password) ∧
            password = env.AccessAuthCode)) ∧
      (c.Session.AccessAuthCode ≠ env.AccessAuthCode → (extractToken c).2 = true →
        (extractToken c).1 ≠ env.ApiToken →
        CheckBasicAuth env c = .abortJSON 401 ⟨-1, "Auth failed"⟩) ∧
      (c.Session.AccessAuthCode ≠ env.AccessAuthCode → (extractToken c).2 = false →
        (∀ username, c.BasicAuth ≠ some (username, env.AccessAuthCode)) →
        CheckBasicAuth env c =
          .abortStatus 401 "WWW-Authenticate"
            "Basic realm=\"Authorization Required\", charset=\"UTF-8\"")) ∧
    (∀ status location, CheckBasicAuth env c ≠ .redirect status location) := by
  have htok := checkToken_eq env c
  refine ⟨?_, ?_, ?_, ?_⟩
  · intro hsecret
    by_cases hloc : isLocalhost env c = true
    · simp [CheckBasicAuth, hsecret, hloc]
    · have hloc2 : isLocalhost env c = false := by simpa using hloc
      simp [CheckBasicAuth, hsecret, hloc2, abortWithUnauthorized, StatusUnauthorized]
  · intro b
    rfl
  · intro hsecret
    by_cases hcookie : c.Session.AccessAuthCode = env.AccessAuthCode
    · simp [CheckBasicAuth, hsecret, checkCookies, hcookie]
    · by_cases hok : (extractToken c).2 = true
      · by_cases hcert : (extractToken c).1 = env.ApiToken
        · simp [CheckBasicAuth, hsecret, checkCookies, hcookie, htok, hok, hcert]
        · have hcert2 : ¬ env.ApiToken = (extractToken c).1 := fun h => hcert h.symm
          simp [CheckBasicAuth, hsecret, checkCookies, hcookie, htok, hok, hcert, hcert2,
            abortWithUnauthorized, StatusUnauthorized]
      · have hok2 : (extractToken c).2 = false := by simpa using hok
        cases hbasic : c.BasicAuth with
        | none =>
          simp [CheckBasicAuth, hsecret, checkCookies, hcookie, htok, hok2, checkBasic,
            hbasic, StatusUnauthorized]
        | some up =>
          obtain ⟨username, password⟩ := up
          by_cases hpw : password = env.AccessAuthCode
          · simp [CheckBasicAuth, hsecret, checkCookies, hcookie, htok, hok2, checkBasic,
              hbasic, hpw]
          · have hpw2 : ¬ env.AccessAuthCode = password := fun h => hpw h.symm
            simp [CheckBasicAuth, hsecret, checkCookies, hcookie, htok, hok2, checkBasic,
              hbasic, hpw, hpw2, StatusUnauthorized]
  · intro status location
    unfold CheckBasicAuth abortWithUnauthorized
    by_cases hsecret : env.AccessAuthCode = ""
    · by_cases hloc : isLocalhost env c = true <;> simp [hsecret, hloc]
    · by_cases hcookie : checkCookies env c = true
      · simp [hsecret, hcookie]
      · by_cases hok : (checkToken env c).2 = true
        · by_cases hcert : (checkToken env c).1 = true <;> simp [hsecret, hcookie, hok, hcert]
        · by_cases hb : ((checkBasic env c).2 && (checkBasic env c).1) = true
          · simp only [hsecret, hcookie, hok, hb]
            simp
          · simp only [hsecret, hcookie, hok, hb]
            simp

end SiYuan
